import Mathlib

namespace PyTealRouter

/-- TEAL value types of the external expression layer (`pyteal.types.TealType`). -/
inductive TealType where
  | none
  | uint64
  | bytes
  | anytype
deriving DecidableEq, Repr

/-- On-completion actions (`pyteal.ast.app.OnComplete` enum constants). -/
inductive OC where
  | NoOp
  | OptIn
  | CloseOut
  | ClearState
  | UpdateApplication
  | DeleteApplication
deriving DecidableEq, Repr

/-- ABI type descriptors (the external `abi.TypeSpec` hierarchy): an atomic
spec identified by a tag, or `abi.TupleTypeSpec` over element specs. -/
inductive TypeSpec where
  | atom (tag : Nat)
  | tup (elems : List TypeSpec)

/-- An instantiated ABI value placeholder: `type_spec.new_instance()` yields a
fresh object; we record its spec and a fresh allocation id (allocation order). -/
structure ABIVar where
  spec : TypeSpec
  id : Nat

/-- Shallow embedding of the expression AST nodes the router slice constructs.
The expression layer itself is an external collaborator; `ext` stands for an
arbitrary caller-supplied external expression with its declared result type and
has-return flag. -/
inductive Expr where
  | int (n : Nat)
  | txnApplicationId
  | txnOnCompletion
  | txnApplicationArg (i : Nat)
  | txnNumAppArgs
  | ocConst (oc : OC)
  | eq (a b : Expr)
  | neq (a b : Expr)
  | and (a b : Expr)
  | or (args : List Expr)
  | cond (branches : List (Expr × Expr))
  | seq (args : List Expr)
  | assert (e : Expr)
  | approve
  | methodSignature (sig : String)
  | subroutineCall (name : String)
  | abiCall (name : String) (args : List ABIVar)
  | abiCallStore (name : String) (args : List ABIVar) (out : ABIVar)
  | decode (v : ABIVar) (src : Expr)
  | tupleStore (t : ABIVar) (i : Nat) (dst : ABIVar)
  | methodReturn (v : ABIVar)
  | log (e : Expr)
  | concat (a b : Expr)
  | bytesConst (bs : List Nat)
  | encode (v : ABIVar)
  | ext (t : TealType) (hr : Bool) (tag : Nat)

/-- Embedding of `CallConfig` (`router.py`): four-valued bitset NEVER=0, CALL=1, CREATE=2,
ALL=3; exactly these four values exist. -/
inductive CallConfig where
  | NEVER
  | CALL
  | CREATE
  | ALL
deriving DecidableEq, Repr

/-- Embedding of `MethodConfig` (`router.py`): one `CallConfig` per on-completion action.
Defaults: `no_op = CALL`, all other fields `NEVER`. -/
structure MethodConfig where
  no_op : CallConfig := .CALL
  opt_in : CallConfig := .NEVER
  close_out : CallConfig := .NEVER
  clear_state : CallConfig := .NEVER
  update_application : CallConfig := .NEVER
  delete_application : CallConfig := .NEVER
deriving DecidableEq, Repr

namespace MethodConfig

/-- Embedding of `MethodConfig.is_never`: every one of the six fields is NEVER
(`all(map(lambda cc: cc == CallConfig.NEVER, astuple(self)))`). -/
def is_never (mc : MethodConfig) : Bool :=
  [mc.no_op, mc.opt_in, mc.close_out, mc.clear_state, mc.update_application,
    mc.delete_application].all (fun cc => cc == CallConfig.NEVER)

/-- Embedding of `MethodConfig.arc4_compliant`: all six fields set to ALL. -/
def arc4_compliant : MethodConfig :=
  { no_op := .ALL, opt_in := .ALL, close_out := .ALL, clear_state := .ALL,
    update_application := .ALL, delete_application := .ALL }

end MethodConfig

/-- The `Expr | int` union returned by `__condition_under_config`,
`approval_cond` and `clear_state_cond`. -/
inductive ExprOrInt where
  | int (n : Nat)
  | expr (e : Expr)

/-- Embedding of `MethodConfig.__condition_under_config`: NEVER ↦ 0; CALL ↦
`Txn.application_id() != Int(0)`; CREATE ↦ `Txn.application_id() == Int(0)`;
ALL ↦ 1. -/
def condition_under_config : CallConfig → ExprOrInt
  | .NEVER => .int 0
  | .CALL => .expr (.neq .txnApplicationId (.int 0))
  | .CREATE => .expr (.eq .txnApplicationId (.int 0))
  | .ALL => .int 1

/-- One insertion into a Python dict literal keyed by `CallConfig`: a repeated
key keeps its original position but the stored value is overwritten by the
later entry. -/
def dictInsertCC (d : List (CallConfig × OC)) (k : CallConfig) (v : OC) :
    List (CallConfig × OC) :=
  if d.any (fun p => p.1 == k) then
    d.map (fun p => if p.1 == k then (k, v) else p)
  else d ++ [(k, v)]

/-- A Python dict built by inserting key/value pairs left to right. -/
def dictOfCC (l : List (CallConfig × OC)) : List (CallConfig × OC) :=
  l.foldl (fun d p => dictInsertCC d p.1 p.2) []

/-- The five (CallConfig field, OnComplete constant) entries of the
`config_oc_pairs` dict literal in `MethodConfig.approval_cond`, in source
order: no_op, opt_in, close_out, update_application, delete_application
(clear_state is absent). -/
def methodConfigFivePairs (mc : MethodConfig) : List (CallConfig × OC) :=
  [(mc.no_op, OC.NoOp), (mc.opt_in, OC.OptIn), (mc.close_out, OC.CloseOut),
    (mc.update_application, OC.UpdateApplication),
    (mc.delete_application, OC.DeleteApplication)]

/-- The dict literal `config_oc_pairs` built by `MethodConfig.approval_cond`,
with Python-dict duplicate-key collapsing. -/
def config_oc_pairs (mc : MethodConfig) : List (CallConfig × OC) :=
  dictOfCC (methodConfigFivePairs mc)

/-- The loop body of `MethodConfig.approval_cond`: the entries appended to
`cond_list` for one dict pair (none for a NEVER config — the unreachable
`TealInternalError` arm, an integer other than 0/1 out of
`condition_under_config`, is collapsed into the skip case). -/
def condListEntry (p : CallConfig × OC) : List Expr :=
  match condition_under_config p.1 with
  | .expr c => [.and (.eq .txnOnCompletion (.ocConst p.2)) c]
  | .int 1 => [.eq .txnOnCompletion (.ocConst p.2)]
  | .int _ => []

/-- Embedding of `MethodConfig.approval_cond` (`router.py` lines 110-142), translated with
Python dict semantics for `config_oc_pairs`. -/
def MethodConfig.approval_cond (mc : MethodConfig) : ExprOrInt :=
  let pairs := config_oc_pairs mc
  if pairs.all (fun p => p.1 == CallConfig.NEVER) then .int 0
  else if pairs.all (fun p => p.1 == CallConfig.ALL) then .int 1
  else
    .expr (.or (pairs.foldl (fun acc p => acc ++ condListEntry p) []))

/-- Embedding of `MethodConfig.clear_state_cond`: the single-action condition of the
clear_state field. -/
def MethodConfig.clear_state_cond (mc : MethodConfig) : ExprOrInt :=
  condition_under_config mc.clear_state

/-- Embedding of `SubroutineFnWrapper` as the router sees it: a named subroutine exposing
`type_of()` and `subroutine.argument_count()` (the wrapped subroutine itself is
an external collaborator). -/
structure SubroutineFnWrapper where
  name : String
  returnType : TealType
  argCount : Nat

/-- Embedding of `ABIReturnSubroutine` as the router sees it.  `declaredSig` is the method
signature string the external layer computes for the declared name;
`argCount` is `subroutine.argument_count()`, `abiArgTypes` the
`expected_arg_types` restricted to the ABI-typed arguments
(`subroutine.abi_args`), `returnType` the string `type_of()` returns ("void"
or an ABI type name), and `outputType` the `output_kwarg_info.abi_type` used
when the return is not void. -/
structure ABIReturnSubroutine where
  declaredSig : String
  argCount : Nat
  abiArgTypes : List TypeSpec
  returnType : String
  outputType : TypeSpec

namespace ABIReturnSubroutine

/-- Modelled from the spec: a routable subroutine is "a typed handler whose
every parameter has an associated ABI type descriptor"
(`ABIReturnSubroutine.is_abi_routable` lives in the out-of-scope subroutine
module; the collision of the two counts is exactly what `wrap_handler`'s error
message reports). -/
def is_abi_routable (h : ABIReturnSubroutine) : Bool :=
  h.argCount == h.abiArgTypes.length

/-- Modelled from the spec: `method_signature(overriding_name)` yields "the
computed method signature (overridden name or the handler's declared name)";
the signature-string format itself is computed in the out-of-scope subroutine
module. -/
def method_signature (h : ABIReturnSubroutine) (overriding : Option String) :
    String :=
  overriding.getD h.declaredSig

end ABIReturnSubroutine

/-- The tagged union of handler shapes accepted by `wrap_handler`
(`Expr | SubroutineFnWrapper | ABIReturnSubroutine`). -/
inductive Handler where
  | expr (e : Expr)
  | subroutineFn (s : SubroutineFnWrapper)
  | abiReturn (h : ABIReturnSubroutine)

/-- The `type_of` capability of the external expression layer, for the embedded
constructors: the router-built nodes have their PyTeal types (comparisons are
uint64, Seq takes its last element's type, effect nodes are none), and `ext`
carries its declared type. -/
def Expr.type_of : Expr → TealType
  | .int _ => .uint64
  | .txnApplicationId => .uint64
  | .txnOnCompletion => .uint64
  | .txnApplicationArg _ => .bytes
  | .txnNumAppArgs => .uint64
  | .ocConst _ => .uint64
  | .eq _ _ => .uint64
  | .neq _ _ => .uint64
  | .and _ _ => .uint64
  | .or _ => .uint64
  | .cond _ => .none
  | .seq args => (args.attach.map (fun x => Expr.type_of x.1)).getLastD .none
  | .assert _ => .none
  | .approve => .none
  | .methodSignature _ => .bytes
  | .subroutineCall _ => .none
  | .abiCall _ _ => .none
  | .abiCallStore _ _ _ => .none
  | .decode _ _ => .none
  | .tupleStore _ _ _ => .none
  | .methodReturn _ => .none
  | .log _ => .none
  | .concat _ _ => .bytes
  | .bytesConst _ => .bytes
  | .encode _ => .bytes
  | .ext t _ _ => t
decreasing_by
  have := List.sizeOf_lt_of_mem x.2
  simp at this ⊢
  omega

/-- The `has_return` capability of the external expression layer: `Approve()`
terminates control flow, a Seq does iff its last element does, `ext` carries
its declared flag, and the remaining embedded nodes do not. -/
def Expr.has_return : Expr → Bool
  | .approve => true
  | .seq args => (args.attach.map (fun x => Expr.has_return x.1)).getLastD false
  | .ext _ hr _ => hr
  | _ => false
decreasing_by
  have := List.sizeOf_lt_of_mem x.2
  simp at this ⊢
  omega

/-- Modelled from the spec: the "maximum flat-argument count (fixed at 15 in
this design)", `pyteal.config.METHOD_ARG_NUM_LIMIT`. -/
def METHOD_ARG_NUM_LIMIT : Nat := 15

/-- Render a `TealType` the way the f-strings in `router.py` do. -/
def TealType.render : TealType → String
  | .none => "TealType.none"
  | .uint64 => "TealType.uint64"
  | .bytes => "TealType.bytes"
  | .anytype => "TealType.anytype"

/-- The local `arg_type_specs` of `wrap_handler`'s method branch: the declared
ABI argument type descriptors, with everything from the 15th onward grouped
into one trailing `TupleTypeSpec` when the argument count exceeds the limit. -/
def arg_type_specs (h : ABIReturnSubroutine) : List TypeSpec :=
  if h.argCount > METHOD_ARG_NUM_LIMIT then
    (h.abiArgTypes.take (METHOD_ARG_NUM_LIMIT - 1)) ++
      [TypeSpec.tup (h.abiArgTypes.drop (METHOD_ARG_NUM_LIMIT - 1))]
  else h.abiArgTypes

/-- The local `arg_abi_vars` before de-tupling: one fresh placeholder per
logical slot, allocation ids 0, 1, … in slot order. -/
def arg_abi_vars (h : ABIReturnSubroutine) : List ABIVar :=
  (arg_type_specs h).enum.map (fun p => ABIVar.mk p.2 p.1)

/-- The local `decode_instructions`: slot i decodes from
`Txn.application_args[i + 1]` (`arg_abi_vars[i].decode(...)` over
`range(len(arg_type_specs))`; the two lists have equal length by
construction). -/
def decode_instructions (h : ABIReturnSubroutine) : List Expr :=
  (arg_abi_vars h).enum.map (fun p =>
    Expr.decode p.2 (.txnApplicationArg (p.1 + 1)))

/-- The local `tuple_arg_type_specs` of the overflow branch. -/
def tuple_arg_type_specs (h : ABIReturnSubroutine) : List TypeSpec :=
  h.abiArgTypes.drop (METHOD_ARG_NUM_LIMIT - 1)

/-- The local `tuple_abi_args`: fresh placeholders for the packed fields,
allocation ids continuing after the slot placeholders. -/
def tuple_abi_args (h : ABIReturnSubroutine) : List ABIVar :=
  (tuple_arg_type_specs h).enum.map (fun p =>
    ABIVar.mk p.2 ((arg_type_specs h).length + p.1))

/-- The local `last_tuple_arg`: the final slot placeholder, cast to Tuple. -/
def last_tuple_arg (h : ABIReturnSubroutine) : ABIVar :=
  (arg_abi_vars h).getLastD (ABIVar.mk (.atom 0) 0)

/-- The local `de_tuple_instructions`:
`last_tuple_arg[i].store_into(tuple_abi_args[i])` over
`range(len(tuple_arg_type_specs))` (equal lengths by construction). -/
def de_tuple_instructions (h : ABIReturnSubroutine) : List Expr :=
  (tuple_abi_args h).enum.map (fun p =>
    Expr.tupleStore (last_tuple_arg h) p.1 p.2)

/-- The decode instruction list actually emitted: `decode_instructions`, with
the de-tupling appended in the overflow case. -/
def methodInstructions (h : ABIReturnSubroutine) : List Expr :=
  if h.argCount > METHOD_ARG_NUM_LIMIT then
    decode_instructions h ++ de_tuple_instructions h
  else decode_instructions h

/-- The final `arg_abi_vars` passed to the subroutine: in the overflow case
the tuple placeholder is replaced by the expanded field placeholders. -/
def methodFinalArgVars (h : ABIReturnSubroutine) : List ABIVar :=
  if h.argCount > METHOD_ARG_NUM_LIMIT then
    (arg_abi_vars h).dropLast ++ tuple_abi_args h
  else arg_abi_vars h

/-- The allocation id of the next `new_instance` call after argument
placeholders (used for `output_temp`). -/
def methodNextId (h : ABIReturnSubroutine) : Nat :=
  if h.argCount > METHOD_ARG_NUM_LIMIT then
    (arg_type_specs h).length + (tuple_abi_args h).length
  else (arg_type_specs h).length

/-- The local `output_temp`: a fresh placeholder of the declared return
type. -/
def output_temp (h : ABIReturnSubroutine) : ABIVar :=
  ABIVar.mk h.outputType (methodNextId h)

/-- Embedding of `ASTBuilder.wrap_handler` (`router.py` lines 281-401).  A raised
`TealInputError` becomes `Except.error` carrying the message. -/
def wrap_handler (is_method_call : Bool) (handler : Handler) :
    Except String Expr :=
  if !is_method_call then
    match handler with
    | .expr e =>
      if e.type_of != TealType.none then
        .error ("bare appcall handler should be TealType.none not " ++
          e.type_of.render ++ ".")
      else if e.has_return then .ok e
      else .ok (.seq [e, .approve])
    | .subroutineFn s =>
      if s.returnType != TealType.none then
        .error ("subroutine call should be returning TealType.none not " ++
          s.returnType.render ++ ".")
      else if s.argCount != 0 then
        .error ("subroutine call should take 0 arg for bare-app call. " ++
          "this subroutine takes " ++ toString s.argCount ++ ".")
      else .ok (.seq [.subroutineCall s.name, .approve])
    | .abiReturn h =>
      if h.returnType != "void" then
        .error ("abi-returning subroutine call should be returning void not " ++
          h.returnType ++ ".")
      else if h.argCount != 0 then
        .error ("abi-returning subroutine call should take 0 arg for bare-app call. " ++
          "this abi-returning subroutine takes " ++ toString h.argCount ++ ".")
      else .ok (.seq [.abiCall h.declaredSig [], .approve])
  else
    match handler with
    | .expr _ => .error "method call should be only registering ABIReturnSubroutine, got Expr."
    | .subroutineFn _ =>
      .error "method call should be only registering ABIReturnSubroutine, got SubroutineFnWrapper."
    | .abiReturn h =>
      if !h.is_abi_routable then
        .error ("method call ABIReturnSubroutine is not routable got " ++
          toString h.argCount ++ " args with " ++
          toString h.abiArgTypes.length ++ " ABI args.")
      else
        if h.returnType == "void" then
          .ok (.seq (methodInstructions h ++
            [.abiCall h.declaredSig (methodFinalArgVars h), .approve]))
        else
          .ok (.seq (methodInstructions h ++
            [.abiCallStore h.declaredSig (methodFinalArgVars h)
              (output_temp h), .methodReturn (output_temp h), .approve]))

/-- Embedding of `OnCompleteAction` (`router.py`): optional creation-case and call-case
bare-call handlers. -/
structure OnCompleteAction where
  on_create : Option Handler := none
  on_call : Option Handler := none

/-- Embedding of `OnCompleteAction.is_empty`: `not (self.on_call or self.on_create)`. -/
def OnCompleteAction.is_empty (a : OnCompleteAction) : Bool :=
  a.on_call.isNone && a.on_create.isNone

/-- Embedding of `BareCallActions` (`router.py`): one `OnCompleteAction` per on-completion
case. -/
structure BareCallActions where
  close_out : OnCompleteAction := {}
  clear_state : OnCompleteAction := {}
  delete_application : OnCompleteAction := {}
  no_op : OnCompleteAction := {}
  opt_in : OnCompleteAction := {}
  update_application : OnCompleteAction := {}

/-- Embedding of `BareCallActions.is_empty`: every one of the six actions is empty. -/
def BareCallActions.is_empty (b : BareCallActions) : Bool :=
  [b.close_out, b.clear_state, b.delete_application, b.no_op, b.opt_in,
    b.update_application].all OnCompleteAction.is_empty

/-- Embedding of `CondNode` (`router.py`): an immutable (condition, branch) pair. -/
structure CondNode where
  condition : Expr
  branch : Expr

/-- The `oc_action_pair` dict of `BareCallActions.approval_construction`:
five actions (clear_state is absent), in the order NoOp, OptIn, CloseOut,
UpdateApplication, DeleteApplication.  The keys are five distinct `OnComplete`
constants, so no dict collapsing arises. -/
def oc_action_pairs (b : BareCallActions) : List (OC × OnCompleteAction) :=
  [(OC.NoOp, b.no_op), (OC.OptIn, b.opt_in), (OC.CloseOut, b.close_out),
    (OC.UpdateApplication, b.update_application),
    (OC.DeleteApplication, b.delete_application)]

/-- The loop body of `approval_construction` for one (oc, action) pair: an
on-call node guarded by `And(Txn.on_completion() == oc,
Txn.application_id() != Int(0))` first, then an on-create node guarded by
`And(Txn.on_completion() == oc, Txn.application_id() == Int(0))`, each
wrapping its handler through `wrap_handler(False, ·)`. -/
def bareNodesFor (oc : OC) (oca : OnCompleteAction) :
    Except String (List CondNode) := do
  let callNodes ← match oca.on_call with
    | Option.none => pure []
    | some h => do
      let w ← wrap_handler false h
      pure [CondNode.mk
        (.and (.eq .txnOnCompletion (.ocConst oc))
          (.neq .txnApplicationId (.int 0))) w]
  let createNodes ← match oca.on_create with
    | Option.none => pure []
    | some h => do
      let w ← wrap_handler false h
      pure [CondNode.mk
        (.and (.eq .txnOnCompletion (.ocConst oc))
          (.eq .txnApplicationId (.int 0))) w]
  pure (callNodes ++ createNodes)

/-- Embedding of `BareCallActions.approval_construction` (`router.py` lines 216-242). -/
def BareCallActions.approval_construction (b : BareCallActions) :
    Except String (Option Expr) := do
  if (oc_action_pairs b).all (fun p => p.2.is_empty) then
    return Option.none
  let nodes ← (oc_action_pairs b).foldlM
    (fun acc p => do pure (acc ++ (← bareNodesFor p.1 p.2))) []
  return some (.cond (nodes.map (fun n => (n.condition, n.branch))))

/-- Embedding of `BareCallActions.clear_state_construction` (`router.py` lines 244-262):
the two-branch logic restricted to the clear_state action, with no
on-completion conjunct in the guards. -/
def BareCallActions.clear_state_construction (b : BareCallActions) :
    Except String (Option Expr) := do
  if b.clear_state.is_empty then
    return Option.none
  let callNodes ← match b.clear_state.on_call with
    | Option.none => pure []
    | some h => do
      let w ← wrap_handler false h
      pure [CondNode.mk (.neq .txnApplicationId (.int 0)) w]
  let createNodes ← match b.clear_state.on_create with
    | Option.none => pure []
    | some h => do
      let w ← wrap_handler false h
      pure [CondNode.mk (.eq .txnApplicationId (.int 0)) w]
  let nodes := callNodes ++ createNodes
  return some (.cond (nodes.map (fun n => (n.condition, n.branch))))

/-- Embedding of `ASTBuilder.add_method_to_ast` (`router.py` lines 403-422), acting on the
accumulated `conditions_n_branches` list.  A `TealInputError` raised inside
(from `wrap_handler` or from a condition integer other than 0/1) propagates
before any node is appended. -/
def add_method_to_ast (l : List CondNode) (method_signature : String)
    (cond : ExprOrInt) (handler : Handler) : Except String (List CondNode) :=
  let walkInCond : Expr :=
    .eq (.txnApplicationArg 0) (.methodSignature method_signature)
  match cond with
  | .expr c => do
    let w ← wrap_handler true handler
    pure (l ++ [CondNode.mk walkInCond (.seq [.assert c, w])])
  | .int 1 => do
    let w ← wrap_handler true handler
    pure (l ++ [CondNode.mk walkInCond w])
  | .int 0 => pure l
  | .int _ => .error "Invalid condition input for add_method_to_ast"

/-- Embedding of `ASTBuilder.program_construction` (`router.py` lines 424-427). -/
def program_construction (l : List CondNode) : Except String Expr :=
  match l with
  | [] => .error "ABIRouter: Cannot build program with an empty AST"
  | _ => .ok (.cond (l.map (fun n => (n.condition, n.branch))))

/-- The `Router` state: name, the two ASTBuilders' accumulated node lists, and
the two selector-table dicts (as insertion-ordered association lists). -/
structure Router where
  name : String
  approval_ast : List CondNode := []
  clear_state_ast : List CondNode := []
  method_sig_to_selector : List (String × List Nat) := []
  method_selector_to_sig : List (List Nat × String) := []

/-- Embedding of `Router.__init__` (`router.py` lines 442-476): install the bare-call
actions, appending at most one zero-app-args-guarded CondNode to each
ASTBuilder.  A `TealInputError` out of the bare-call tree construction
propagates. -/
def routerInit (name : String) (bare_calls : Option BareCallActions) :
    Except String Router := do
  let r0 : Router := { name := name }
  match bare_calls with
  | Option.none => return r0
  | some bc =>
    if bc.is_empty then
      return r0
    let bareCallApproval ← bc.approval_construction
    let r1 := match bareCallApproval with
      | some t =>
        { r0 with approval_ast :=
            [CondNode.mk (.eq .txnNumAppArgs (.int 0)) t] }
      | Option.none => r0
    let bareCallClear ← bc.clear_state_construction
    match bareCallClear with
    | some t =>
      return { r1 with clear_state_ast :=
          [CondNode.mk (.eq .txnNumAppArgs (.int 0)) t] }
    | Option.none => return r1

/-- Embedding of `Router.add_method_handler` (`router.py` lines 478-512), parameterized by
the external cryptographic checksum.  Python raises propagate after any
in-place mutation already performed, so the result is the mutated state
together with the optional error message. -/
def add_method_handler (hash : String → List Nat) (r : Router)
    (method_call : ABIReturnSubroutine) (overriding_name : Option String)
    (call_configs : MethodConfig) : Router × Option String :=
  let method_signature := method_call.method_signature overriding_name
  if call_configs.is_never then
    (r, some ("registered method " ++ method_signature ++ " is never executed"))
  else
    let method_selector := (hash method_signature).take 4
    if (r.method_sig_to_selector.lookup method_signature).isSome then
      (r, some ("re-registering method " ++ method_signature ++ " detected"))
    else
      match r.method_selector_to_sig.lookup method_selector with
      | some prevSig =>
        (r, some ("re-registering method " ++ method_signature ++
          " has hash collision with " ++ prevSig))
      | Option.none =>
        let r1 := { r with
          method_sig_to_selector :=
            r.method_sig_to_selector ++ [(method_signature, method_selector)],
          method_selector_to_sig :=
            r.method_selector_to_sig ++ [(method_selector, method_signature)] }
        let methodApprovalCond := call_configs.approval_cond
        let methodClearStateCond := call_configs.clear_state_cond
        match add_method_to_ast r1.approval_ast method_signature
            methodApprovalCond (.abiReturn method_call) with
        | .error e => (r1, some e)
        | .ok ap =>
          let r2 := { r1 with approval_ast := ap }
          match add_method_to_ast r2.clear_state_ast method_signature
              methodClearStateCond (.abiReturn method_call) with
          | .error e => (r2, some e)
          | .ok cs => ({ r2 with clear_state_ast := cs }, Option.none)

/-- The contract descriptor (`sdk_abi.Contract`): contract name and the
registered method signatures, in registration order (parsing signatures into
`Method` objects is external). -/
structure Contract where
  name : String
  methods : List String

/-- Embedding of `Router.contract_construct` (`router.py` lines 514-529): the signatures
are the keys of `method_sig_to_selector` (all of them are strings). -/
def contract_construct (r : Router) : Contract :=
  { name := r.name, methods := r.method_sig_to_selector.map Prod.fst }

/-- Embedding of `Router.build_program` (`router.py` lines 531-545): Python builds the
returned tuple left to right, so the approval tree is constructed (and may
raise) before the clear-state tree. -/
def build_program (r : Router) : Except String (Expr × Expr × Contract) := do
  let ap ← program_construction r.approval_ast
  let cs ← program_construction r.clear_state_ast
  return (ap, cs, contract_construct r)

/-- Modelled from the spec: the four-byte constant selector-return tag
(`pyteal.config.RETURN_METHOD_SELECTOR`, external to the examined slice). -/
def RETURN_METHOD_SELECTOR : List Nat := [21, 31, 124, 117]

/-- Modelled from the spec: the log instruction's minimum machine version
(`Op.log.min_version`, external to the examined slice). -/
def logMinVersion : Nat := 5

/-- Embedding of `MethodReturn.__teal__` (`method_return.py` lines 20-27): fails when the
compilation version is below log's minimum version, otherwise lowers to
`Log(Concat(Bytes("base16", RETURN_METHOD_SELECTOR), self.arg.encode()))`. -/
def methodReturnTeal (version : Nat) (arg : ABIVar) : Except String Expr :=
  if version < logMinVersion then
    .error ("current version " ++ toString version ++
      " is lower than log's min version " ++ toString logMinVersion)
  else
    .ok (.log (.concat (.bytesConst RETURN_METHOD_SELECTOR) (.encode arg)))

/-- The approval condition as claim C1 words it: across all six on-completion
actions, one guard term per action whose CallConfig is not NEVER, with
(on_completion == action) for ALL, (… AND application_id != 0) for CALL and
(… AND application_id == 0) for CREATE; constant 0 when every action is NEVER
and constant 1 when every action is ALL. -/
def claimSixActionApprovalCond (mc : MethodConfig) : ExprOrInt :=
  let pairs : List (OC × CallConfig) :=
    [(OC.NoOp, mc.no_op), (OC.OptIn, mc.opt_in), (OC.CloseOut, mc.close_out),
      (OC.ClearState, mc.clear_state),
      (OC.UpdateApplication, mc.update_application),
      (OC.DeleteApplication, mc.delete_application)]
  if pairs.all (fun p => p.2 == CallConfig.NEVER) then .int 0
  else if pairs.all (fun p => p.2 == CallConfig.ALL) then .int 1
  else
    .expr (.or (pairs.foldl (fun acc p =>
      match p.2 with
      | .NEVER => acc
      | .ALL => acc ++ [.eq .txnOnCompletion (.ocConst p.1)]
      | .CALL => acc ++
          [.and (.eq .txnOnCompletion (.ocConst p.1))
            (.neq .txnApplicationId (.int 0))]
      | .CREATE => acc ++
          [.and (.eq .txnOnCompletion (.ocConst p.1))
            (.eq .txnApplicationId (.int 0))]) []))

/-- The distinct values of a list in first-occurrence order. -/
def firstOccurrences (l : List CallConfig) : List CallConfig :=
  l.foldl (fun acc c => if acc.contains c then acc else acc ++ [c]) []

/-- The guard term the amended claim C1 assigns to one distinct CallConfig
value: built from the last action (in field order) carrying that config. -/
def amendedTermFor (fields : List (CallConfig × OC)) (c : CallConfig) :
    List Expr :=
  match c, (fields.filter (fun p => p.1 == c)).getLast? with
  | _, Option.none => []
  | .NEVER, some _ => []
  | .CALL, some p =>
    [.and (.eq .txnOnCompletion (.ocConst p.2))
      (.neq .txnApplicationId (.int 0))]
  | .CREATE, some p =>
    [.and (.eq .txnOnCompletion (.ocConst p.2))
      (.eq .txnApplicationId (.int 0))]
  | .ALL, some p => [.eq .txnOnCompletion (.ocConst p.2)]

/-- The approval condition as the amended claim C1 words it: only the five
non-clear-state actions are considered, grouped by CallConfig value with
Python-dict collapsing — distinct config values in first-occurrence order,
each paired with the last action (in field order) carrying that config. -/
def amendedApprovalCond (mc : MethodConfig) : ExprOrInt :=
  let fields := methodConfigFivePairs mc
  if fields.all (fun p => p.1 == CallConfig.NEVER) then .int 0
  else if fields.all (fun p => p.1 == CallConfig.ALL) then .int 1
  else
    .expr (.or (((firstOccurrences (fields.map Prod.fst)).map
      (amendedTermFor fields)).flatten))

/-- The value stored in the `config_oc_pairs` dict at key `c`: the second
component of the last field pair whose config is `c`. -/
def lastValFor (fields : List (CallConfig × OC)) (c : CallConfig) : OC :=
  (((fields.filter (fun p => p.1 == c)).getLast?).map Prod.snd).getD OC.NoOp

/-- The fully expanded argument placeholder list for an overflow-packed method
call with declared ABI argument types `ts`: the first 14 slot placeholders
(ids 0..13) followed by the expanded tuple-field placeholders (ids 15
onward), whose specs are exactly `ts` in declared order. -/
def methodCallVarsBig (ts : List TypeSpec) : List ABIVar :=
  (ts.take 14).enum.map (fun p => ABIVar.mk p.2 p.1) ++
    (ts.drop 14).enum.map (fun p => ABIVar.mk p.2 (15 + p.1))

/-- The CondNode list one registration appends to one ASTBuilder, given the
derived condition and the wrapped handler body. -/
def methodContrib (sig : String) (cond : ExprOrInt) (w : Expr) :
    List CondNode :=
  match cond with
  | .expr c => [CondNode.mk (.eq (.txnApplicationArg 0) (.methodSignature sig))
      (.seq [.assert c, w])]
  | .int 1 => [CondNode.mk (.eq (.txnApplicationArg 0) (.methodSignature sig))
      w]
  | .int _ => []

/-- The routability error message of `wrap_handler`'s method branch. -/
def routableErrMsg (h : ABIReturnSubroutine) : String :=
  "method call ABIReturnSubroutine is not routable got " ++
    toString h.argCount ++ " args with " ++
    toString h.abiArgTypes.length ++ " ABI args."

/-- The bare-call approval nodes as the amended claim C9 words them: the
per-action node blocks concatenated in the fixed canonical order no-op,
opt-in, close-out, update-application, delete-application. -/
def claimApprovalBareNodes (b : BareCallActions) :
    Except String (List CondNode) := do
  let n1 ← bareNodesFor .NoOp b.no_op
  let n2 ← bareNodesFor .OptIn b.opt_in
  let n3 ← bareNodesFor .CloseOut b.close_out
  let n4 ← bareNodesFor .UpdateApplication b.update_application
  let n5 ← bareNodesFor .DeleteApplication b.delete_application
  pure (n1 ++ n2 ++ n3 ++ n4 ++ n5)

/-- One `add_method_handler` call's arguments. -/
structure Registration where
  method_call : ABIReturnSubroutine
  overriding_name : Option String
  call_configs : MethodConfig

/-- A sequence of `add_method_handler` calls; a raise stops the sequence. -/
def runRegs (hash : String → List Nat) (r : Router) :
    List Registration → Router × Option String
  | [] => (r, Option.none)
  | reg :: rest =>
    match add_method_handler hash r reg.method_call reg.overriding_name
        reg.call_configs with
    | (r1, Option.none) => runRegs hash r1 rest
    | (r1, some e) => (r1, some e)

/-- The CondNodes one successful registration appends to the approval
builder. -/
def approvalContrib (reg : Registration) : List CondNode :=
  match wrap_handler true (.abiReturn reg.method_call) with
  | .ok w => methodContrib (reg.method_call.method_signature
      reg.overriding_name) reg.call_configs.approval_cond w
  | .error _ => []

/-- The CondNodes one successful registration appends to the clear-state
builder. -/
def clearContrib (reg : Registration) : List CondNode :=
  match wrap_handler true (.abiReturn reg.method_call) with
  | .ok w => methodContrib (reg.method_call.method_signature
      reg.overriding_name) reg.call_configs.clear_state_cond w
  | .error _ => []

-- Theorems about the embedding and the claims.

theorem foldl_append_eq_flatten {α β : Type} (g : α → List β) (l : List α)
    (acc : List β) :
    l.foldl (fun a p => a ++ g p) acc = acc ++ (l.map g).flatten := by
  induction l generalizing acc with
  | nil => simp
  | cons p t ih => simp [ih]

theorem dictOfCC_concat (l : List (CallConfig × OC)) (p : CallConfig × OC) :
    dictOfCC (l ++ [p]) = dictInsertCC (dictOfCC l) p.1 p.2 := by
  simp [dictOfCC, List.foldl_append]

theorem firstOccurrences_concat (L : List CallConfig) (x : CallConfig) :
    firstOccurrences (L ++ [x]) =
      if (firstOccurrences L).contains x then firstOccurrences L
      else firstOccurrences L ++ [x] := by
  simp [firstOccurrences, List.foldl_append]

theorem mem_firstOccurrences (L : List CallConfig) :
    ∀ c, c ∈ firstOccurrences L ↔ c ∈ L := by
  induction L using List.reverseRecOn with
  | nil => simp [firstOccurrences]
  | append_singleton l x ih =>
    intro c
    rw [firstOccurrences_concat]
    by_cases hx : (firstOccurrences l).contains x
    · rw [if_pos hx]
      have hxl : x ∈ l := (ih x).mp (List.elem_iff.mp hx)
      simp only [List.mem_append, List.mem_singleton, ih c]
      constructor
      · intro h; exact Or.inl h
      · rintro (h | rfl)
        · exact h
        · exact hxl
    · rw [if_neg hx]
      simp [List.mem_append, ih c, ih x]

theorem lastValFor_concat (l : List (CallConfig × OC)) (p : CallConfig × OC)
    (c : CallConfig) :
    lastValFor (l ++ [p]) c = if p.1 == c then p.2 else lastValFor l c := by
  by_cases h : p.1 == c
  · rw [if_pos h]
    unfold lastValFor
    rw [List.filter_append]
    simp only [List.filter, h, List.getLast?_concat]
    rfl
  · rw [if_neg h]
    unfold lastValFor
    rw [List.filter_append]
    simp only [List.filter, h]
    simp

theorem all_map_fst {β : Type} (f : CallConfig → CallConfig × β)
    (P : CallConfig × β → Bool) (K : List CallConfig) :
    (K.map f).all P = K.all (fun x => P (f x)) := by
  induction K with
  | nil => rfl
  | cons a t ih => simp [List.all_cons, ih]

theorem any_map_fst {β : Type} (f : CallConfig → CallConfig × β)
    (P : CallConfig × β → Bool) (K : List CallConfig) :
    (K.map f).any P = K.any (fun x => P (f x)) := by
  induction K with
  | nil => rfl
  | cons a t ih => simp [List.any_cons, ih]

theorem beq_symm_cc (a b : CallConfig) : (a == b) = (b == a) := by
  by_cases h : a = b <;> simp [h, beq_iff_eq, eq_comm] at *

theorem dictOfCC_eq_structure (l : List (CallConfig × OC)) :
    dictOfCC l = (firstOccurrences (l.map Prod.fst)).map
      (fun c => (c, lastValFor l c)) := by
  induction l using List.reverseRecOn with
  | nil => rfl
  | append_singleton t p ih =>
    rw [dictOfCC_concat, ih]
    have hmapfst : (t ++ [p]).map Prod.fst = t.map Prod.fst ++ [p.1] := by simp
    rw [hmapfst, firstOccurrences_concat]
    unfold dictInsertCC
    have hany : ((firstOccurrences (t.map Prod.fst)).map
        (fun c => (c, lastValFor t c))).any (fun q => q.1 == p.1) =
        (firstOccurrences (t.map Prod.fst)).contains p.1 := by
      rw [List.contains_eq_any_beq, any_map_fst]
      congr 1
      funext c
      exact beq_symm_cc c p.1
    rw [hany]
    by_cases hc : (firstOccurrences (t.map Prod.fst)).contains p.1
    · rw [if_pos hc, if_pos hc]
      rw [List.map_map]
      apply List.map_congr_left
      intro c _
      simp only [Function.comp]
      by_cases h2 : c = p.1
      · subst h2
        simp [lastValFor_concat]
      · have hb : (c == p.1) = false := by simp [h2]
        have hb2 : (p.1 == c) = false := by simp [Ne.symm h2]
        simp [hb, hb2, lastValFor_concat]
    · rw [if_neg hc, if_neg hc]
      rw [List.map_append]
      congr 1
      · apply List.map_congr_left
        intro c hcK
        have hcl : c ∈ t.map Prod.fst := (mem_firstOccurrences _ _).mp hcK
        have hne : p.1 ≠ c := by
          intro he
          exact hc (List.elem_iff.mpr ((mem_firstOccurrences _ _).mpr (he ▸ hcl)))
        have hb : (p.1 == c) = false := by simp [hne]
        simp [lastValFor_concat, hb]
      · simp [lastValFor_concat]

theorem all_firstOccurrences (L : List CallConfig) (P : CallConfig → Bool) :
    (firstOccurrences L).all P = L.all P := by
  rw [Bool.eq_iff_iff, List.all_eq_true, List.all_eq_true]
  constructor <;> intro h x hx
  · exact h x ((mem_firstOccurrences L x).mpr hx)
  · exact h x ((mem_firstOccurrences L x).mp hx)

theorem all_fst_map {β : Type} (L : List (CallConfig × β)) (P : CallConfig → Bool) :
    (L.map Prod.fst).all P = L.all (fun p => P p.1) := by
  induction L with
  | nil => rfl
  | cons a t ih => simp [List.all_cons, ih]

theorem all_dictOfCC (l : List (CallConfig × OC)) (k : CallConfig) :
    (dictOfCC l).all (fun q => q.1 == k) = l.all (fun p => p.1 == k) := by
  rw [dictOfCC_eq_structure, all_map_fst, all_firstOccurrences, all_fst_map]

theorem condListEntry_eq_amendedTermFor (fields : List (CallConfig × OC))
    (c : CallConfig) (hc : c ∈ fields.map Prod.fst) :
    condListEntry (c, lastValFor fields c) = amendedTermFor fields c := by
  obtain ⟨p0, hp0, rfl⟩ := List.mem_map.mp hc
  have hmem : p0 ∈ fields.filter (fun p => p.1 == p0.1) :=
    List.mem_filter.mpr ⟨hp0, by simp⟩
  have hne : fields.filter (fun p => p.1 == p0.1) ≠ [] :=
    List.ne_nil_of_mem hmem
  obtain ⟨q, hq⟩ : ∃ q, (fields.filter (fun p => p.1 == p0.1)).getLast? = some q := by
    cases hgl : (fields.filter (fun p => p.1 == p0.1)).getLast? with
    | none => exact absurd (List.getLast?_eq_none_iff.mp hgl) hne
    | some q => exact ⟨q, rfl⟩
  have hval : lastValFor fields p0.1 = q.2 := by
    simp [lastValFor, hq]
  rw [hval]
  rcases hc4 : p0.1 with _ | _ | _ | _ <;>
    simp [amendedTermFor, condListEntry, condition_under_config, hc4 ▸ hq]

/-- C1 counterexample: with clear_state = CALL and the other five actions
NEVER, claim C1 demands the OR of one clear-state guard term, but
`approval_cond` never inspects the clear_state field and returns the constant
0. -/
theorem approval_cond_ignores_clear_state :
    MethodConfig.approval_cond
      { no_op := .NEVER, clear_state := .CALL } = .int 0 ∧
    claimSixActionApprovalCond { no_op := .NEVER, clear_state := .CALL } =
      .expr (.or [.and (.eq .txnOnCompletion (.ocConst .ClearState))
        (.neq .txnApplicationId (.int 0))]) ∧
    MethodConfig.approval_cond { no_op := .NEVER, clear_state := .CALL } ≠
      claimSixActionApprovalCond { no_op := .NEVER, clear_state := .CALL } :=
  ⟨rfl, rfl, fun h => nomatch h⟩

/-- C1 (amended): `approval_cond()` considers only the five non-clear-state
actions, grouped by CallConfig value with Python-dict collapsing: constant 0
when all five are NEVER, constant 1 when all five are ALL, otherwise the OR of
one guard term per distinct non-NEVER config value in first-occurrence order,
the term built from the last action (in field order) carrying that config. -/
theorem approval_cond_eq_amended (mc : MethodConfig) :
    mc.approval_cond = amendedApprovalCond mc := by
  simp only [MethodConfig.approval_cond, amendedApprovalCond, config_oc_pairs]
  rw [all_dictOfCC (methodConfigFivePairs mc) CallConfig.NEVER,
    all_dictOfCC (methodConfigFivePairs mc) CallConfig.ALL]
  by_cases h1 : (methodConfigFivePairs mc).all (fun p => p.1 == CallConfig.NEVER)
  · simp [h1]
  by_cases h2 : (methodConfigFivePairs mc).all (fun p => p.1 == CallConfig.ALL)
  · simp [h1, h2]
  simp only [h1, h2, if_false]
  rw [foldl_append_eq_flatten condListEntry (dictOfCC (methodConfigFivePairs mc)) []]
  rw [List.nil_append, dictOfCC_eq_structure, List.map_map]
  have hmaps : List.map (condListEntry ∘ fun c => (c, lastValFor (methodConfigFivePairs mc) c))
      (firstOccurrences ((methodConfigFivePairs mc).map Prod.fst)) =
      List.map (amendedTermFor (methodConfigFivePairs mc))
      (firstOccurrences ((methodConfigFivePairs mc).map Prod.fst)) := by
    apply List.map_congr_left
    intro c hcK
    simp only [Function.comp]
    exact condListEntry_eq_amendedTermFor (methodConfigFivePairs mc) c
      ((mem_firstOccurrences _ _).mp hcK)
  rw [hmaps]

/-- C10: when the derived condition is a non-constant expression, the CondNode
appended by `add_method_to_ast` is guarded only by the selector equality
(application argument 0 equals the method signature), and the derived
condition is compiled as an Assert at the head of the branch body, ahead of
the wrapped handler. -/
theorem add_method_to_ast_asserts_nonconstant_cond (l : List CondNode)
    (sig : String) (c : Expr) (h : Handler) :
    add_method_to_ast l sig (.expr c) h =
      (wrap_handler true h).map (fun w =>
        l ++ [CondNode.mk (.eq (.txnApplicationArg 0) (.methodSignature sig))
          (.seq [.assert c, w])]) := by
  unfold add_method_to_ast
  cases hw : wrap_handler true h <;> simp [hw, Except.map]

/-- C7: for bare calls, `wrap_handler` fails exactly when the handler violates
its shape rule — a plain expression whose type is not none, or a subroutine /
abi-returning subroutine with a non-void result or nonzero argument count —
with the error naming the violated constraint, and on success returns the
expression itself when it already terminates control flow, and otherwise the
handler invocation followed by an appended Approve. -/
theorem wrap_handler_bare_characterization (h : Handler) :
    (∀ w, wrap_handler false h = Except.ok w →
      (match h with
       | .expr e => e.type_of = TealType.none ∧
           w = if e.has_return then e else Expr.seq [e, .approve]
       | .subroutineFn s => s.returnType = TealType.none ∧ s.argCount = 0 ∧
           w = Expr.seq [.subroutineCall s.name, .approve]
       | .abiReturn a => a.returnType = "void" ∧ a.argCount = 0 ∧
           w = Expr.seq [.abiCall a.declaredSig [], .approve])) ∧
    ((∃ msg, wrap_handler false h = Except.error msg) ↔
      (match h with
       | .expr e => e.type_of ≠ TealType.none
       | .subroutineFn s => s.returnType ≠ TealType.none ∨ s.argCount ≠ 0
       | .abiReturn a => a.returnType ≠ "void" ∨ a.argCount ≠ 0)) ∧
    (match h with
     | .expr e => e.type_of ≠ TealType.none →
         wrap_handler false h = Except.error
           ("bare appcall handler should be TealType.none not " ++
             e.type_of.render ++ ".")
     | .subroutineFn s =>
         (s.returnType ≠ TealType.none →
           wrap_handler false h = Except.error
             ("subroutine call should be returning TealType.none not " ++
               s.returnType.render ++ ".")) ∧
         (s.returnType = TealType.none → s.argCount ≠ 0 →
           wrap_handler false h = Except.error
             ("subroutine call should take 0 arg for bare-app call. " ++
               "this subroutine takes " ++ toString s.argCount ++ "."))
     | .abiReturn a =>
         (a.returnType ≠ "void" →
           wrap_handler false h = Except.error
             ("abi-returning subroutine call should be returning void not " ++
               a.returnType ++ ".")) ∧
         (a.returnType = "void" → a.argCount ≠ 0 →
           wrap_handler false h = Except.error
             ("abi-returning subroutine call should take 0 arg for bare-app call. " ++
               "this abi-returning subroutine takes " ++ toString a.argCount ++ "."))) := by
  cases h with
  | expr e =>
    by_cases ht : e.type_of = TealType.none <;>
      by_cases hr : e.has_return <;>
        simp [wrap_handler, ht, hr]
  | subroutineFn s =>
    by_cases ht : s.returnType = TealType.none <;>
      by_cases ha : s.argCount = 0 <;>
        simp [wrap_handler, ht, ha]
  | abiReturn a =>
    by_cases ht : a.returnType = "void" <;>
      by_cases ha : a.argCount = 0 <;>
        simp [wrap_handler, ht, ha]

/-- C7 witness: a zero-argument none-typed subroutine wraps into its
invocation followed by Approve. -/
theorem wrap_handler_bare_characterization_witness :
    SubroutineFnWrapper.returnType ⟨"f", TealType.none, 0⟩ = TealType.none ∧
    SubroutineFnWrapper.argCount ⟨"f", TealType.none, 0⟩ = 0 ∧
    Expr.seq [.subroutineCall "f", .approve] =
      Expr.seq [.subroutineCall "f", .approve] :=
  (wrap_handler_bare_characterization
    (.subroutineFn ⟨"f", TealType.none, 0⟩)).1
    (Expr.seq [.subroutineCall "f", .approve]) rfl

/-- C8: lowering a method-return fails exactly when the machine version is
below log's minimum version, with an error naming that minimum; otherwise it
emits one log record of the selector-return tag concatenated with the
ABI-encoded value; and in a wrapped non-void method body the method-return
node is immediately followed by Approve. -/
theorem methodReturn_characterization :
    (∀ v arg, (∃ e, methodReturnTeal v arg = Except.error e) ↔
      v < logMinVersion) ∧
    (∀ v arg, v < logMinVersion →
      methodReturnTeal v arg = Except.error ("current version " ++ toString v ++
        " is lower than log's min version " ++ toString logMinVersion)) ∧
    (∀ v arg, logMinVersion ≤ v →
      methodReturnTeal v arg = Except.ok (.log (.concat
        (.bytesConst RETURN_METHOD_SELECTOR) (.encode arg)))) ∧
    (∀ h : ABIReturnSubroutine, h.is_abi_routable = true →
      h.returnType ≠ "void" →
      ∃ pre callArgs out, wrap_handler true (.abiReturn h) =
        Except.ok (.seq (pre ++ [.abiCallStore h.declaredSig callArgs out,
          .methodReturn out, .approve]))) := by
  refine ⟨fun v arg => ?_, fun v arg hv => ?_, fun v arg hv => ?_,
    fun h hr hv => ?_⟩
  · constructor
    · rintro ⟨e, he⟩
      by_contra hge
      simp [methodReturnTeal, hge] at he
    · intro hlt
      exact ⟨"current version " ++ toString v ++
        " is lower than log's min version " ++ toString logMinVersion,
        by simp [methodReturnTeal, hlt]⟩
  · simp [methodReturnTeal, hv]
  · simp [methodReturnTeal, Nat.not_lt.mpr hv]
  · have hvoid : (h.returnType == "void") = false := by
      simp [hv]
    exact ⟨methodInstructions h, methodFinalArgVars h, output_temp h,
      by simp [wrap_handler, hr, hvoid]⟩

/-- C8 witness: at version 6 (≥ log's minimum) the lowering succeeds with the
tagged log record. -/
theorem methodReturn_characterization_witness :
    logMinVersion ≤ 6 ∧
    methodReturnTeal 6 (ABIVar.mk (.atom 0) 0) = Except.ok (.log (.concat
      (.bytesConst RETURN_METHOD_SELECTOR) (.encode (ABIVar.mk (.atom 0) 0)))) :=
  ⟨by decide, methodReturn_characterization.2.2.1 6 (ABIVar.mk (.atom 0) 0)
    (by decide)⟩

theorem enumFrom_map_enumFrom_map {A B C : Type} (l : List A) (n : Nat)
    (f : Nat × A → B) (g : Nat × B → C) :
    (List.enumFrom n ((List.enumFrom n l).map f)).map g =
      (List.enumFrom n l).map (fun p => g (p.1, f p)) := by
  induction l generalizing n with
  | nil => rfl
  | cons a t ih => simp [List.enumFrom, ih (n + 1)]

theorem enum_map_enum_map {A B C : Type} (l : List A)
    (f : Nat × A → B) (g : Nat × B → C) :
    ((l.enum.map f).enum).map g = l.enum.map (fun p => g (p.1, f p)) :=
  enumFrom_map_enumFrom_map l 0 f g

section OverflowLemmas

variable (h : ABIReturnSubroutine)

theorem arg_type_specs_big (hbig : METHOD_ARG_NUM_LIMIT < h.argCount) :
    arg_type_specs h = h.abiArgTypes.take 14 ++
      [TypeSpec.tup (h.abiArgTypes.drop 14)] := by
  unfold arg_type_specs
  rw [if_pos hbig]
  norm_num [METHOD_ARG_NUM_LIMIT]

theorem arg_type_specs_length_big (hroutable : h.argCount = h.abiArgTypes.length)
    (hbig : METHOD_ARG_NUM_LIMIT < h.argCount) :
    (arg_type_specs h).length = 15 := by
  have hlen : 15 < h.abiArgTypes.length := by
    have := hbig
    simp only [METHOD_ARG_NUM_LIMIT] at this
    omega
  rw [arg_type_specs_big h hbig]
  simp [List.length_take, Nat.min_eq_left (le_of_lt (by omega : 14 < h.abiArgTypes.length))]

theorem arg_abi_vars_big (hroutable : h.argCount = h.abiArgTypes.length)
    (hbig : METHOD_ARG_NUM_LIMIT < h.argCount) :
    arg_abi_vars h = (h.abiArgTypes.take 14).enum.map
        (fun p => ABIVar.mk p.2 p.1) ++
      [ABIVar.mk (.tup (h.abiArgTypes.drop 14)) 14] := by
  have hlen : 15 < h.abiArgTypes.length := by
    have := hbig
    simp only [METHOD_ARG_NUM_LIMIT] at this
    omega
  rw [arg_abi_vars, arg_type_specs_big h hbig, List.enum_append]
  simp [List.length_take, List.enumFrom,
    Nat.min_eq_left (le_of_lt (by omega : 14 < h.abiArgTypes.length))]

theorem decode_instructions_eq :
    decode_instructions h = (arg_type_specs h).enum.map (fun p =>
      Expr.decode (ABIVar.mk p.2 p.1) (.txnApplicationArg (p.1 + 1))) := by
  rw [decode_instructions, arg_abi_vars]
  exact enum_map_enum_map (arg_type_specs h) _ _

theorem decode_instructions_big (hroutable : h.argCount = h.abiArgTypes.length)
    (hbig : METHOD_ARG_NUM_LIMIT < h.argCount) :
    decode_instructions h = (h.abiArgTypes.take 14).enum.map (fun p =>
        Expr.decode (ABIVar.mk p.2 p.1) (.txnApplicationArg (p.1 + 1))) ++
      [Expr.decode (ABIVar.mk (.tup (h.abiArgTypes.drop 14)) 14)
        (.txnApplicationArg 15)] := by
  have hlen : 15 < h.abiArgTypes.length := by
    have := hbig
    simp only [METHOD_ARG_NUM_LIMIT] at this
    omega
  rw [decode_instructions_eq, arg_type_specs_big h hbig, List.enum_append]
  simp [List.length_take, List.enumFrom,
    Nat.min_eq_left (le_of_lt (by omega : 14 < h.abiArgTypes.length))]

theorem tuple_abi_args_big (hroutable : h.argCount = h.abiArgTypes.length)
    (hbig : METHOD_ARG_NUM_LIMIT < h.argCount) :
    tuple_abi_args h = (h.abiArgTypes.drop 14).enum.map
      (fun p => ABIVar.mk p.2 (15 + p.1)) := by
  rw [tuple_abi_args, tuple_arg_type_specs]
  simp [arg_type_specs_length_big h hroutable hbig, METHOD_ARG_NUM_LIMIT]

theorem last_tuple_arg_big (hroutable : h.argCount = h.abiArgTypes.length)
    (hbig : METHOD_ARG_NUM_LIMIT < h.argCount) :
    last_tuple_arg h = ABIVar.mk (.tup (h.abiArgTypes.drop 14)) 14 := by
  rw [last_tuple_arg, arg_abi_vars_big h hroutable hbig]
  simp

theorem de_tuple_instructions_big (hroutable : h.argCount = h.abiArgTypes.length)
    (hbig : METHOD_ARG_NUM_LIMIT < h.argCount) :
    de_tuple_instructions h = (h.abiArgTypes.drop 14).enum.map (fun p =>
      Expr.tupleStore (ABIVar.mk (.tup (h.abiArgTypes.drop 14)) 14) p.1
        (ABIVar.mk p.2 (15 + p.1))) := by
  rw [de_tuple_instructions, tuple_abi_args_big h hroutable hbig,
    last_tuple_arg_big h hroutable hbig]
  exact enum_map_enum_map (h.abiArgTypes.drop 14) _ _

end OverflowLemmas

theorem methodFinalArgVars_big (h : ABIReturnSubroutine)
    (hroutable : h.argCount = h.abiArgTypes.length)
    (hbig : METHOD_ARG_NUM_LIMIT < h.argCount) :
    methodFinalArgVars h = methodCallVarsBig h.abiArgTypes := by
  rw [methodFinalArgVars, if_pos hbig, arg_abi_vars_big h hroutable hbig,
    List.dropLast_concat, tuple_abi_args_big h hroutable hbig]
  rfl

theorem methodNextId_big (h : ABIReturnSubroutine)
    (hroutable : h.argCount = h.abiArgTypes.length)
    (hbig : METHOD_ARG_NUM_LIMIT < h.argCount) :
    methodNextId h = 15 + (h.abiArgTypes.length - 14) := by
  rw [methodNextId, if_pos hbig, arg_type_specs_length_big h hroutable hbig,
    tuple_abi_args_big h hroutable hbig]
  simp [List.enum_length]

/-- C2: a routable method handler with more than 15 declared ABI parameters
wraps into: 14 individual slot decodes (slot i from application argument
i + 1), one decode of the synthetic trailing tuple (the 15th slot, from
application argument 15), the extraction of each packed field out of the
tuple placeholder in declared order, and the invocation with the fully
expanded placeholder list, whose specs are the N declared types in original
order (the packed tail having size N - 14). -/
theorem wrap_handler_overflow_packing (h : ABIReturnSubroutine)
    (hroutable : h.argCount = h.abiArgTypes.length)
    (hbig : METHOD_ARG_NUM_LIMIT < h.argCount) :
    wrap_handler true (.abiReturn h) = Except.ok (.seq (
      ((h.abiArgTypes.take 14).enum.map (fun p =>
          Expr.decode (ABIVar.mk p.2 p.1) (.txnApplicationArg (p.1 + 1))) ++
        [Expr.decode (ABIVar.mk (.tup (h.abiArgTypes.drop 14)) 14)
          (.txnApplicationArg 15)]) ++
      ((h.abiArgTypes.drop 14).enum.map (fun p =>
          Expr.tupleStore (ABIVar.mk (.tup (h.abiArgTypes.drop 14)) 14) p.1
            (ABIVar.mk p.2 (15 + p.1)))) ++
      (if h.returnType == "void" then
        [Expr.abiCall h.declaredSig (methodCallVarsBig h.abiArgTypes),
          .approve]
      else
        [Expr.abiCallStore h.declaredSig (methodCallVarsBig h.abiArgTypes)
          (ABIVar.mk h.outputType (15 + (h.abiArgTypes.length - 14))),
         Expr.methodReturn
           (ABIVar.mk h.outputType (15 + (h.abiArgTypes.length - 14))),
         Expr.approve]))) ∧
    (methodCallVarsBig h.abiArgTypes).map ABIVar.spec = h.abiArgTypes ∧
    (methodCallVarsBig h.abiArgTypes).length = h.abiArgTypes.length ∧
    (h.abiArgTypes.drop 14).length = h.abiArgTypes.length - 14 := by
  have hroutb : h.is_abi_routable = true := by
    simp [ABIReturnSubroutine.is_abi_routable, hroutable]
  refine ⟨?_, ?_, ?_, by simp⟩
  · have hinstr : methodInstructions h =
        decode_instructions h ++ de_tuple_instructions h := by
      rw [methodInstructions, if_pos hbig]
    by_cases hvoid : (h.returnType == "void") = true <;>
      simp only [wrap_handler, hroutb, Bool.not_true, Bool.false_eq_true,
        if_false, hvoid, if_true, hinstr,
        decode_instructions_big h hroutable hbig,
        de_tuple_instructions_big h hroutable hbig,
        methodFinalArgVars_big h hroutable hbig, output_temp,
        methodNextId_big h hroutable hbig, List.append_assoc]
  · rw [methodCallVarsBig, List.map_append, List.map_map, List.map_map]
    have h1 : ((h.abiArgTypes.take 14).enum.map
        (ABIVar.spec ∘ fun p => ABIVar.mk p.2 p.1)) = h.abiArgTypes.take 14 :=
      List.enum_map_snd _
    have h2 : ((h.abiArgTypes.drop 14).enum.map
        (ABIVar.spec ∘ fun p => ABIVar.mk p.2 (15 + p.1))) =
        h.abiArgTypes.drop 14 :=
      List.enum_map_snd _
    rw [h1, h2, List.take_append_drop]
  · simp [methodCallVarsBig, List.enum_length]
    omega

/-- C2 witness: a 16-argument void method is routable, exceeds the limit, and
its expanded call placeholders carry the 16 declared specs in order. -/
theorem wrap_handler_overflow_packing_witness :
    (ABIReturnSubroutine.mk "m" 16 ((List.range 16).map TypeSpec.atom)
        "void" (.atom 0)).argCount =
      (ABIReturnSubroutine.mk "m" 16 ((List.range 16).map TypeSpec.atom)
        "void" (.atom 0)).abiArgTypes.length ∧
    METHOD_ARG_NUM_LIMIT <
      (ABIReturnSubroutine.mk "m" 16 ((List.range 16).map TypeSpec.atom)
        "void" (.atom 0)).argCount ∧
    (methodCallVarsBig (ABIReturnSubroutine.mk "m" 16
        ((List.range 16).map TypeSpec.atom) "void" (.atom 0)).abiArgTypes).map
      ABIVar.spec =
      (ABIReturnSubroutine.mk "m" 16 ((List.range 16).map TypeSpec.atom)
        "void" (.atom 0)).abiArgTypes :=
  ⟨rfl, by decide,
    (wrap_handler_overflow_packing
      (ABIReturnSubroutine.mk "m" 16 ((List.range 16).map TypeSpec.atom)
        "void" (.atom 0)) rfl (by decide)).2.1⟩

theorem approval_cond_cases (mc : MethodConfig) :
    mc.approval_cond = .int 0 ∨ mc.approval_cond = .int 1 ∨
      ∃ e, mc.approval_cond = .expr e := by
  simp only [MethodConfig.approval_cond]
  split_ifs <;> simp

theorem clear_state_cond_cases (mc : MethodConfig) :
    mc.clear_state_cond = .int 0 ∨ mc.clear_state_cond = .int 1 ∨
      ∃ e, mc.clear_state_cond = .expr e := by
  cases h : mc.clear_state <;>
    simp [MethodConfig.clear_state_cond, condition_under_config, h]

theorem approval_cond_eq_int0_iff (mc : MethodConfig) :
    mc.approval_cond = .int 0 ↔
      (methodConfigFivePairs mc).all (fun p => p.1 == CallConfig.NEVER) = true := by
  have hall := all_dictOfCC (methodConfigFivePairs mc) CallConfig.NEVER
  unfold MethodConfig.approval_cond
  simp only [config_oc_pairs]
  split_ifs with h1 h2 <;> rw [hall] at h1 <;> simp [h1]

theorem clear_state_cond_eq_int0_iff (mc : MethodConfig) :
    mc.clear_state_cond = .int 0 ↔ mc.clear_state = .NEVER := by
  cases h : mc.clear_state <;>
    simp [MethodConfig.clear_state_cond, condition_under_config, h]

theorem is_never_iff (mc : MethodConfig) :
    mc.is_never = true ↔
      ((methodConfigFivePairs mc).all (fun p => p.1 == CallConfig.NEVER) = true ∧
        mc.clear_state = .NEVER) := by
  simp [MethodConfig.is_never, methodConfigFivePairs]
  tauto

theorem not_both_conds_zero (mc : MethodConfig) (hnever : mc.is_never = false) :
    ¬(mc.approval_cond = .int 0 ∧ mc.clear_state_cond = .int 0) := by
  rintro ⟨h1, h2⟩
  have := (is_never_iff mc).mpr
    ⟨(approval_cond_eq_int0_iff mc).mp h1, (clear_state_cond_eq_int0_iff mc).mp h2⟩
  rw [hnever] at this
  exact Bool.false_ne_true this

theorem wrap_handler_method_routable_ok (h : ABIReturnSubroutine)
    (hr : h.is_abi_routable = true) :
    ∃ w, wrap_handler true (.abiReturn h) = Except.ok w := by
  by_cases hvoid : (h.returnType == "void") = true
  · exact ⟨.seq (methodInstructions h ++
      [.abiCall h.declaredSig (methodFinalArgVars h), .approve]),
      by simp [wrap_handler, hr, hvoid]⟩
  · exact ⟨.seq (methodInstructions h ++
      [.abiCallStore h.declaredSig (methodFinalArgVars h) (output_temp h),
        .methodReturn (output_temp h), .approve]),
      by simp [wrap_handler, hr, hvoid]⟩

theorem wrap_handler_method_not_routable (h : ABIReturnSubroutine)
    (hr : h.is_abi_routable = false) :
    wrap_handler true (.abiReturn h) = Except.error (routableErrMsg h) := by
  simp [wrap_handler, hr, routableErrMsg]

theorem add_method_to_ast_ok_eq (l : List CondNode) (sig : String)
    (cond : ExprOrInt) (handler : Handler) (w : Expr)
    (hw : wrap_handler true handler = Except.ok w)
    (hcond : cond = .int 0 ∨ cond = .int 1 ∨ ∃ c, cond = .expr c) :
    add_method_to_ast l sig cond handler =
      Except.ok (l ++ methodContrib sig cond w) := by
  rcases hcond with h | h | ⟨c, h⟩ <;> subst h <;>
    simp [add_method_to_ast, hw, methodContrib] <;> rfl

theorem add_method_to_ast_error_eq (l : List CondNode) (sig : String)
    (cond : ExprOrInt) (handler : Handler) (msg : String)
    (hw : wrap_handler true handler = Except.error msg)
    (hcond : cond = .int 1 ∨ ∃ c, cond = .expr c) :
    add_method_to_ast l sig cond handler = Except.error msg := by
  rcases hcond with h | ⟨c, h⟩ <;> subst h <;>
    simp [add_method_to_ast, hw]

theorem add_method_to_ast_zero (l : List CondNode) (sig : String)
    (handler : Handler) :
    add_method_to_ast l sig (.int 0) handler = Except.ok l := by
  simp only [add_method_to_ast]
  rfl

theorem add_method_handler_never (hash : String → List Nat) (r : Router)
    (h : ABIReturnSubroutine) (o : Option String) (cc : MethodConfig)
    (hnever : cc.is_never = true) :
    add_method_handler hash r h o cc = (r, some ("registered method " ++
      h.method_signature o ++ " is never executed")) := by
  simp [add_method_handler, hnever]

theorem add_method_handler_dup (hash : String → List Nat) (r : Router)
    (h : ABIReturnSubroutine) (o : Option String) (cc : MethodConfig)
    (sel0 : List Nat) (hnever : cc.is_never = false)
    (hdup : r.method_sig_to_selector.lookup (h.method_signature o) = some sel0) :
    add_method_handler hash r h o cc = (r, some ("re-registering method " ++
      h.method_signature o ++ " detected")) := by
  simp [add_method_handler, hnever, hdup]

theorem add_method_handler_collision (hash : String → List Nat) (r : Router)
    (h : ABIReturnSubroutine) (o : Option String) (cc : MethodConfig)
    (prev : String) (hnever : cc.is_never = false)
    (hdup : r.method_sig_to_selector.lookup (h.method_signature o) = Option.none)
    (hcol : r.method_selector_to_sig.lookup
      ((hash (h.method_signature o)).take 4) = some prev) :
    add_method_handler hash r h o cc = (r, some ("re-registering method " ++
      h.method_signature o ++ " has hash collision with " ++ prev)) := by
  simp [add_method_handler, hnever, hdup, hcol]

theorem add_method_handler_success (hash : String → List Nat) (r : Router)
    (h : ABIReturnSubroutine) (o : Option String) (cc : MethodConfig) (w : Expr)
    (hnever : cc.is_never = false)
    (hdup : r.method_sig_to_selector.lookup (h.method_signature o) = Option.none)
    (hcol : r.method_selector_to_sig.lookup
      ((hash (h.method_signature o)).take 4) = Option.none)
    (hw : wrap_handler true (.abiReturn h) = Except.ok w) :
    add_method_handler hash r h o cc =
      ({ r with
        method_sig_to_selector := r.method_sig_to_selector ++
          [(h.method_signature o, (hash (h.method_signature o)).take 4)],
        method_selector_to_sig := r.method_selector_to_sig ++
          [((hash (h.method_signature o)).take 4, h.method_signature o)],
        approval_ast := r.approval_ast ++
          methodContrib (h.method_signature o) cc.approval_cond w,
        clear_state_ast := r.clear_state_ast ++
          methodContrib (h.method_signature o) cc.clear_state_cond w },
        Option.none) := by
  have hap := add_method_to_ast_ok_eq r.approval_ast (h.method_signature o)
    cc.approval_cond (.abiReturn h) w hw (approval_cond_cases cc)
  have hcs := add_method_to_ast_ok_eq r.clear_state_ast (h.method_signature o)
    cc.clear_state_cond (.abiReturn h) w hw (clear_state_cond_cases cc)
  simp [add_method_handler, hnever, hdup, hcol, hap, hcs]

theorem add_method_handler_not_routable (hash : String → List Nat) (r : Router)
    (h : ABIReturnSubroutine) (o : Option String) (cc : MethodConfig)
    (hnever : cc.is_never = false)
    (hdup : r.method_sig_to_selector.lookup (h.method_signature o) = Option.none)
    (hcol : r.method_selector_to_sig.lookup
      ((hash (h.method_signature o)).take 4) = Option.none)
    (hroutable : h.is_abi_routable = false) :
    add_method_handler hash r h o cc =
      ({ r with
        method_sig_to_selector := r.method_sig_to_selector ++
          [(h.method_signature o, (hash (h.method_signature o)).take 4)],
        method_selector_to_sig := r.method_selector_to_sig ++
          [((hash (h.method_signature o)).take 4, h.method_signature o)] },
        some (routableErrMsg h)) := by
  have hwe := wrap_handler_method_not_routable h hroutable
  rcases approval_cond_cases cc with h0 | h1 | ⟨e, he⟩
  · have hcz : cc.clear_state_cond ≠ .int 0 := fun hc =>
      not_both_conds_zero cc hnever ⟨h0, hc⟩
    have hcsc : cc.clear_state_cond = .int 1 ∨
        ∃ c, cc.clear_state_cond = .expr c := by
      rcases clear_state_cond_cases cc with hx | hx | hx
      · exact absurd hx hcz
      · exact Or.inl hx
      · exact Or.inr hx
    have hcs := add_method_to_ast_error_eq r.clear_state_ast
      (h.method_signature o) cc.clear_state_cond (.abiReturn h) _ hwe hcsc
    have hap := add_method_to_ast_zero r.approval_ast (h.method_signature o)
      (Handler.abiReturn h)
    simp [add_method_handler, hnever, hdup, hcol, h0, hap, hcs]
  · have hap := add_method_to_ast_error_eq r.approval_ast
      (h.method_signature o) cc.approval_cond (.abiReturn h) _ hwe (Or.inl h1)
    simp [add_method_handler, hnever, hdup, hcol, hap]
  · have hap := add_method_to_ast_error_eq r.approval_ast
      (h.method_signature o) cc.approval_cond (.abiReturn h) _ hwe
      (Or.inr ⟨e, he⟩)
    simp [add_method_handler, hnever, hdup, hcol, hap]

theorem add_method_handler_ok_conditions (hash : String → List Nat)
    (r : Router) (h : ABIReturnSubroutine) (o : Option String)
    (cc : MethodConfig)
    (hok : (add_method_handler hash r h o cc).2 = Option.none) :
    cc.is_never = false ∧
    r.method_sig_to_selector.lookup (h.method_signature o) = Option.none ∧
    r.method_selector_to_sig.lookup
      ((hash (h.method_signature o)).take 4) = Option.none ∧
    h.is_abi_routable = true := by
  by_cases hnever : cc.is_never = true
  · rw [add_method_handler_never hash r h o cc hnever] at hok
    exact absurd hok (by simp)
  rw [Bool.not_eq_true] at hnever
  cases hdup : r.method_sig_to_selector.lookup (h.method_signature o) with
  | some sel0 =>
    rw [add_method_handler_dup hash r h o cc sel0 hnever hdup] at hok
    exact absurd hok (by simp)
  | none =>
    cases hcol : r.method_selector_to_sig.lookup
        ((hash (h.method_signature o)).take 4) with
    | some prev =>
      rw [add_method_handler_collision hash r h o cc prev hnever hdup hcol]
        at hok
      exact absurd hok (by simp)
    | none =>
      by_cases hroutable : h.is_abi_routable = true
      · exact ⟨hnever, rfl, rfl, hroutable⟩
      rw [Bool.not_eq_true] at hroutable
      rw [add_method_handler_not_routable hash r h o cc hnever hdup hcol
        hroutable] at hok
      exact absurd hok (by simp)

/-- C4 counterexample: a well-typed but non-routable handler passes the
is-never, duplicate and collision checks on a fresh router, yet the call still
raises — the claim's three conditions do not exhaust the failure cases. -/
theorem add_method_handler_fails_outside_listed_checks :
    MethodConfig.is_never {} = false ∧
    ((Router.mk "c" [] [] [] []).method_sig_to_selector.lookup
      "bad()void").isSome = false ∧
    ((Router.mk "c" [] [] [] []).method_selector_to_sig.lookup
      [0, 0, 0, 0]).isSome = false ∧
    (add_method_handler (fun _ => [0, 0, 0, 0]) (Router.mk "c" [] [] [] [])
      (ABIReturnSubroutine.mk "bad()void" 1 [] "void" (.atom 0))
      Option.none {}).2 ≠ Option.none :=
  ⟨rfl, rfl, rfl, fun hc => nomatch hc⟩

/-- C4 (amended): `add_method_handler` raises exactly when the call config is
never, the signature is a duplicate, the selector collides (checked in that
order, with the collision error naming the first-registered signature), or the
handler is not routable; when the first three checks pass the
signature/selector pair is recorded bidirectionally — even when the
routability failure then raises. -/
theorem add_method_handler_characterization (hash : String → List Nat)
    (r : Router) (h : ABIReturnSubroutine) (o : Option String)
    (cc : MethodConfig) :
    ((add_method_handler hash r h o cc).2 = Option.none ↔
      (cc.is_never = false ∧
        r.method_sig_to_selector.lookup (h.method_signature o) = Option.none ∧
        r.method_selector_to_sig.lookup
          ((hash (h.method_signature o)).take 4) = Option.none ∧
        h.is_abi_routable = true)) ∧
    (cc.is_never = true →
      add_method_handler hash r h o cc = (r, some ("registered method " ++
        h.method_signature o ++ " is never executed"))) ∧
    (∀ sel0, cc.is_never = false →
      r.method_sig_to_selector.lookup (h.method_signature o) = some sel0 →
      add_method_handler hash r h o cc = (r, some ("re-registering method " ++
        h.method_signature o ++ " detected"))) ∧
    (∀ prev, cc.is_never = false →
      r.method_sig_to_selector.lookup (h.method_signature o) = Option.none →
      r.method_selector_to_sig.lookup
        ((hash (h.method_signature o)).take 4) = some prev →
      add_method_handler hash r h o cc = (r, some ("re-registering method " ++
        h.method_signature o ++ " has hash collision with " ++ prev))) ∧
    (cc.is_never = false →
      r.method_sig_to_selector.lookup (h.method_signature o) = Option.none →
      r.method_selector_to_sig.lookup
        ((hash (h.method_signature o)).take 4) = Option.none →
      (add_method_handler hash r h o cc).1.method_sig_to_selector =
        r.method_sig_to_selector ++
          [(h.method_signature o, (hash (h.method_signature o)).take 4)] ∧
      (add_method_handler hash r h o cc).1.method_selector_to_sig =
        r.method_selector_to_sig ++
          [((hash (h.method_signature o)).take 4, h.method_signature o)]) := by
  refine ⟨⟨fun hok => ?_, fun ⟨hnever, hdup, hcol, hroutable⟩ => ?_⟩,
    fun hnever => add_method_handler_never hash r h o cc hnever,
    fun sel0 hnever hdup => add_method_handler_dup hash r h o cc sel0 hnever hdup,
    fun prev hnever hdup hcol =>
      add_method_handler_collision hash r h o cc prev hnever hdup hcol,
    fun hnever hdup hcol => ?_⟩
  · exact add_method_handler_ok_conditions hash r h o cc hok
  · obtain ⟨w, hw⟩ := wrap_handler_method_routable_ok h hroutable
    rw [add_method_handler_success hash r h o cc w hnever hdup hcol hw]
  · by_cases hroutable : h.is_abi_routable = true
    · obtain ⟨w, hw⟩ := wrap_handler_method_routable_ok h hroutable
      rw [add_method_handler_success hash r h o cc w hnever hdup hcol hw]
      exact ⟨rfl, rfl⟩
    · rw [Bool.not_eq_true] at hroutable
      rw [add_method_handler_not_routable hash r h o cc hnever hdup hcol
        hroutable]
      exact ⟨rfl, rfl⟩

/-- C4 witness: registering under an all-NEVER config on a fresh router raises
the is-never error and leaves the router as the first component. -/
theorem add_method_handler_characterization_witness :
    MethodConfig.is_never
      { no_op := .NEVER, opt_in := .NEVER, close_out := .NEVER,
        clear_state := .NEVER, update_application := .NEVER,
        delete_application := .NEVER } = true ∧
    add_method_handler (fun _ => [0, 0, 0, 0]) (Router.mk "c" [] [] [] [])
      (ABIReturnSubroutine.mk "go()void" 0 [] "void" (.atom 0)) Option.none
      { no_op := .NEVER, opt_in := .NEVER, close_out := .NEVER,
        clear_state := .NEVER, update_application := .NEVER,
        delete_application := .NEVER } =
      (Router.mk "c" [] [] [] [],
        some "registered method go()void is never executed") :=
  ⟨rfl, (add_method_handler_characterization (fun _ => [0, 0, 0, 0])
    (Router.mk "c" [] [] [] [])
    (ABIReturnSubroutine.mk "go()void" 0 [] "void" (.atom 0)) Option.none
    _).2.1 rfl⟩

/-- C5 counterexample: the call registering a non-routable handler on a fresh
router fails, yet the selector table has been mutated — the router state is
not unchanged. -/
theorem add_method_handler_mutates_on_failure :
    (add_method_handler (fun _ => [0, 0, 0, 0]) (Router.mk "c" [] [] [] [])
      (ABIReturnSubroutine.mk "bad()void" 1 [] "void" (.atom 0))
      Option.none {}).2 =
      some "method call ABIReturnSubroutine is not routable got 1 args with 0 ABI args." ∧
    (add_method_handler (fun _ => [0, 0, 0, 0]) (Router.mk "c" [] [] [] [])
      (ABIReturnSubroutine.mk "bad()void" 1 [] "void" (.atom 0))
      Option.none {}).1.method_sig_to_selector =
      [("bad()void", [0, 0, 0, 0])] ∧
    (add_method_handler (fun _ => [0, 0, 0, 0]) (Router.mk "c" [] [] [] [])
      (ABIReturnSubroutine.mk "bad()void" 1 [] "void" (.atom 0))
      Option.none {}).1 ≠ Router.mk "c" [] [] [] [] := by
  refine ⟨rfl, rfl, fun hc => ?_⟩
  have := congrArg Router.method_sig_to_selector hc
  exact absurd this (by decide)

/-- C5 (amended): a call failing the is-never, duplicate-signature or
selector-collision check leaves the router exactly unchanged; a call that
passes those checks but fails the routability check raises after both
selector-table mappings have been extended with the new pair, with both node
lists unchanged. -/
theorem add_method_handler_failure_states (hash : String → List Nat)
    (r : Router) (h : ABIReturnSubroutine) (o : Option String)
    (cc : MethodConfig) :
    (cc.is_never = true → (add_method_handler hash r h o cc).1 = r) ∧
    (∀ sel0, cc.is_never = false →
      r.method_sig_to_selector.lookup (h.method_signature o) = some sel0 →
      (add_method_handler hash r h o cc).1 = r) ∧
    (∀ prev, cc.is_never = false →
      r.method_sig_to_selector.lookup (h.method_signature o) = Option.none →
      r.method_selector_to_sig.lookup
        ((hash (h.method_signature o)).take 4) = some prev →
      (add_method_handler hash r h o cc).1 = r) ∧
    (cc.is_never = false →
      r.method_sig_to_selector.lookup (h.method_signature o) = Option.none →
      r.method_selector_to_sig.lookup
        ((hash (h.method_signature o)).take 4) = Option.none →
      h.is_abi_routable = false →
      add_method_handler hash r h o cc =
        ({ r with
          method_sig_to_selector := r.method_sig_to_selector ++
            [(h.method_signature o, (hash (h.method_signature o)).take 4)],
          method_selector_to_sig := r.method_selector_to_sig ++
            [((hash (h.method_signature o)).take 4, h.method_signature o)] },
          some (routableErrMsg h))) := by
  refine ⟨fun hnever => ?_, fun sel0 hnever hdup => ?_,
    fun prev hnever hdup hcol => ?_, fun hnever hdup hcol hroutable =>
      add_method_handler_not_routable hash r h o cc hnever hdup hcol hroutable⟩
  · rw [add_method_handler_never hash r h o cc hnever]
  · rw [add_method_handler_dup hash r h o cc sel0 hnever hdup]
  · rw [add_method_handler_collision hash r h o cc prev hnever hdup hcol]

/-- C5 witness: a duplicate registration fails and leaves the router
unchanged. -/
theorem add_method_handler_failure_states_witness :
    MethodConfig.is_never {} = false ∧
    ((Router.mk "c" [] [] [("go()void", [0, 0, 0, 0])]
      [([0, 0, 0, 0], "go()void")]).method_sig_to_selector.lookup
        "go()void" = some [0, 0, 0, 0]) ∧
    (add_method_handler (fun _ => [0, 0, 0, 0])
      (Router.mk "c" [] [] [("go()void", [0, 0, 0, 0])]
        [([0, 0, 0, 0], "go()void")])
      (ABIReturnSubroutine.mk "go()void" 0 [] "void" (.atom 0)) Option.none
      {}).1 =
      Router.mk "c" [] [] [("go()void", [0, 0, 0, 0])]
        [([0, 0, 0, 0], "go()void")] :=
  ⟨rfl, rfl, (add_method_handler_failure_states (fun _ => [0, 0, 0, 0])
    (Router.mk "c" [] [] [("go()void", [0, 0, 0, 0])]
      [([0, 0, 0, 0], "go()void")])
    (ABIReturnSubroutine.mk "go()void" 0 [] "void" (.atom 0)) Option.none
    {}).2.1 [0, 0, 0, 0] rfl rfl⟩

theorem program_construction_ne_nil (l : List CondNode) (h : l ≠ []) :
    program_construction l =
      Except.ok (.cond (l.map (fun n => (n.condition, n.branch)))) := by
  cases l with
  | nil => exact absurd rfl h
  | cons a t => rfl

theorem build_program_of_ne_nil (r : Router) (h1 : r.approval_ast ≠ [])
    (h2 : r.clear_state_ast ≠ []) :
    build_program r = Except.ok
      (.cond (r.approval_ast.map (fun n => (n.condition, n.branch))),
       .cond (r.clear_state_ast.map (fun n => (n.condition, n.branch))),
       contract_construct r) := by
  simp [build_program, program_construction_ne_nil _ h1,
    program_construction_ne_nil _ h2]
  rfl

/-- C3 counterexample: on a fresh Router with no bare calls, one successful
registration under the default config succeeds, yet `build_program` still
fails — the clear-state builder stayed empty (default clear_state is NEVER). -/
theorem build_program_fails_after_default_registration :
    (add_method_handler (fun _ => [0, 0, 0, 0]) (Router.mk "demo" [] [] [] [])
      (ABIReturnSubroutine.mk "add(uint64,uint64)uint64" 2 [.atom 0, .atom 1]
        "uint64" (.atom 2)) Option.none {}).2 = Option.none ∧
    build_program
      (add_method_handler (fun _ => [0, 0, 0, 0]) (Router.mk "demo" [] [] [] [])
        (ABIReturnSubroutine.mk "add(uint64,uint64)uint64" 2 [.atom 0, .atom 1]
          "uint64" (.atom 2)) Option.none {}).1 =
      Except.error "ABIRouter: Cannot build program with an empty AST" :=
  ⟨rfl, rfl⟩

/-- C3 (amended): `build_program` fails exactly when at least one of the two
ASTBuilders holds zero nodes; on a Router with no bare calls and no methods it
fails; and after one successful registration whose derived approval and
clear-state conditions are both nonzero (so both builders receive a node), it
succeeds and returns a non-empty approval tree. -/
theorem build_program_characterization :
    (∀ r : Router, (∃ e, build_program r = Except.error e) ↔
      (r.approval_ast = [] ∨ r.clear_state_ast = [])) ∧
    (∀ name, routerInit name Option.none = Except.ok (Router.mk name [] [] [] []) ∧
      build_program (Router.mk name [] [] [] []) =
        Except.error "ABIRouter: Cannot build program with an empty AST") ∧
    (∀ (hash : String → List Nat) (name : String) (h : ABIReturnSubroutine)
        (o : Option String) (cc : MethodConfig) (w : Expr),
      wrap_handler true (.abiReturn h) = Except.ok w →
      cc.is_never = false →
      cc.approval_cond ≠ .int 0 → cc.clear_state_cond ≠ .int 0 →
      (add_method_handler hash (Router.mk name [] [] [] []) h o cc).2 =
        Option.none ∧
      (∃ ap cs c, build_program
        (add_method_handler hash (Router.mk name [] [] [] []) h o cc).1 =
        Except.ok (ap, cs, c)) ∧
      (add_method_handler hash (Router.mk name [] [] [] []) h o cc).1.approval_ast
        ≠ []) := by
  refine ⟨fun r => ?_, fun name => ⟨rfl, rfl⟩,
    fun hash name h o cc w hw hnever hap hcs => ?_⟩
  · cases h1 : r.approval_ast with
    | nil =>
      constructor
      · intro _
        exact Or.inl rfl
      · intro _
        exact ⟨"ABIRouter: Cannot build program with an empty AST", by
          simp only [build_program, program_construction, h1]
          rfl⟩
    | cons a t =>
      cases h2 : r.clear_state_ast with
      | nil =>
        constructor
        · intro _
          exact Or.inr rfl
        · intro _
          exact ⟨"ABIRouter: Cannot build program with an empty AST", by
            simp only [build_program, program_construction, h1, h2]
            rfl⟩
      | cons b u =>
        rw [build_program_of_ne_nil r (by simp [h1]) (by simp [h2])]
        simp [h1, h2]
  · have hsucc := add_method_handler_success hash (Router.mk name [] [] [] [])
      h o cc w hnever rfl rfl hw
    rw [hsucc]
    have hcontribA : methodContrib (h.method_signature o) cc.approval_cond w ≠ [] := by
      rcases approval_cond_cases cc with h0 | h1 | ⟨e, he⟩
      · exact absurd h0 hap
      · simp [methodContrib, h1]
      · simp [methodContrib, he]
    have hcontribC : methodContrib (h.method_signature o) cc.clear_state_cond w ≠ [] := by
      rcases clear_state_cond_cases cc with h0 | h1 | ⟨e, he⟩
      · exact absurd h0 hcs
      · simp [methodContrib, h1]
      · simp [methodContrib, he]
    refine ⟨rfl, ⟨_, _, _, build_program_of_ne_nil _ (by simpa using hcontribA)
      (by simpa using hcontribC)⟩, by simpa using hcontribA⟩

/-- C3 witness: registering with the arc4-compliant config on a fresh router
succeeds and makes `build_program` succeed with a non-empty approval tree. -/
theorem build_program_characterization_witness :
    wrap_handler true (.abiReturn (ABIReturnSubroutine.mk "go()void" 0 []
      "void" (.atom 0))) = Except.ok (.seq (methodInstructions
        (ABIReturnSubroutine.mk "go()void" 0 [] "void" (.atom 0)) ++
        [.abiCall "go()void" (methodFinalArgVars
          (ABIReturnSubroutine.mk "go()void" 0 [] "void" (.atom 0))),
          .approve])) ∧
    MethodConfig.is_never MethodConfig.arc4_compliant = false ∧
    ((add_method_handler (fun _ => [0, 0, 0, 0]) (Router.mk "demo" [] [] [] [])
      (ABIReturnSubroutine.mk "go()void" 0 [] "void" (.atom 0)) Option.none
      MethodConfig.arc4_compliant).2 = Option.none ∧
    (∃ ap cs c, build_program
      (add_method_handler (fun _ => [0, 0, 0, 0]) (Router.mk "demo" [] [] [] [])
        (ABIReturnSubroutine.mk "go()void" 0 [] "void" (.atom 0)) Option.none
        MethodConfig.arc4_compliant).1 = Except.ok (ap, cs, c)) ∧
    (add_method_handler (fun _ => [0, 0, 0, 0]) (Router.mk "demo" [] [] [] [])
      (ABIReturnSubroutine.mk "go()void" 0 [] "void" (.atom 0)) Option.none
      MethodConfig.arc4_compliant).1.approval_ast ≠ []) :=
  ⟨rfl, rfl, build_program_characterization.2.2 (fun _ => [0, 0, 0, 0]) "demo"
    (ABIReturnSubroutine.mk "go()void" 0 [] "void" (.atom 0)) Option.none
    MethodConfig.arc4_compliant _ rfl rfl (fun hx => nomatch hx)
    (fun hx => nomatch hx)⟩

theorem except_bind_ok {A B : Type} (a : A) (f : A → Except String B) :
    (Except.ok a >>= f) = f a := rfl

theorem except_bind_error {A B : Type} (e : String)
    (f : A → Except String B) :
    ((Except.error e : Except String A) >>= f) = Except.error e := rfl

/-- C9 counterexample: a BareCallActions whose only non-empty action is
clear_state is not empty, yet `approval_construction` returns None — the
emptiness shortcut inspects only the five non-clear-state actions, not all
six. -/
theorem approval_construction_ignores_clear_state :
    BareCallActions.is_empty
      { clear_state := { on_call := some (.expr (.ext .none true 0)) } } =
      false ∧
    BareCallActions.approval_construction
      { clear_state := { on_call := some (.expr (.ext .none true 0)) } } =
      Except.ok Option.none :=
  ⟨rfl, rfl⟩

/-- C9 (amended): `approval_construction` returns None exactly when the five
non-clear-state actions are all empty; otherwise it returns the conditional
tree over the per-action nodes collected in the canonical order no-op, opt-in,
close-out, update-application, delete-application, where each non-empty
action emits up to two CondNodes — the on-call node guarded by
(on_completion == action AND application_id != 0) first, then the on-create
node guarded by (on_completion == action AND application_id == 0). -/
theorem approval_construction_characterization :
    (∀ b : BareCallActions,
      (BareCallActions.approval_construction b = Except.ok Option.none ↔
        (b.no_op.is_empty = true ∧ b.opt_in.is_empty = true ∧
          b.close_out.is_empty = true ∧ b.update_application.is_empty = true ∧
          b.delete_application.is_empty = true))) ∧
    (∀ b : BareCallActions,
      ¬(b.no_op.is_empty = true ∧ b.opt_in.is_empty = true ∧
          b.close_out.is_empty = true ∧ b.update_application.is_empty = true ∧
          b.delete_application.is_empty = true) →
      BareCallActions.approval_construction b =
        (claimApprovalBareNodes b).map (fun ns =>
          some (.cond (ns.map (fun n => (n.condition, n.branch)))))) ∧
    (∀ (oc : OC) (oca : OnCompleteAction),
      oca.on_call = Option.none → oca.on_create = Option.none →
      bareNodesFor oc oca = Except.ok []) ∧
    (∀ (oc : OC) (oca : OnCompleteAction) (hc : Handler) (w1 : Expr),
      oca.on_call = some hc → oca.on_create = Option.none →
      wrap_handler false hc = Except.ok w1 →
      bareNodesFor oc oca = Except.ok
        [CondNode.mk (.and (.eq .txnOnCompletion (.ocConst oc))
          (.neq .txnApplicationId (.int 0))) w1]) ∧
    (∀ (oc : OC) (oca : OnCompleteAction) (hk : Handler) (w2 : Expr),
      oca.on_call = Option.none → oca.on_create = some hk →
      wrap_handler false hk = Except.ok w2 →
      bareNodesFor oc oca = Except.ok
        [CondNode.mk (.and (.eq .txnOnCompletion (.ocConst oc))
          (.eq .txnApplicationId (.int 0))) w2]) ∧
    (∀ (oc : OC) (oca : OnCompleteAction) (hc hk : Handler) (w1 w2 : Expr),
      oca.on_call = some hc → oca.on_create = some hk →
      wrap_handler false hc = Except.ok w1 →
      wrap_handler false hk = Except.ok w2 →
      bareNodesFor oc oca = Except.ok
        [CondNode.mk (.and (.eq .txnOnCompletion (.ocConst oc))
          (.neq .txnApplicationId (.int 0))) w1,
         CondNode.mk (.and (.eq .txnOnCompletion (.ocConst oc))
          (.eq .txnApplicationId (.int 0))) w2]) := by
  have hbridge : ∀ b : BareCallActions,
      ((oc_action_pairs b).all (fun p => p.2.is_empty) = true) ↔
        (b.no_op.is_empty = true ∧ b.opt_in.is_empty = true ∧
          b.close_out.is_empty = true ∧ b.update_application.is_empty = true ∧
          b.delete_application.is_empty = true) := by
    intro b
    simp [oc_action_pairs]
  have hstruct : ∀ b : BareCallActions,
      ¬((oc_action_pairs b).all (fun p => p.2.is_empty) = true) →
      BareCallActions.approval_construction b =
        (claimApprovalBareNodes b).map (fun ns =>
          some (.cond (ns.map (fun n => (n.condition, n.branch))))) := by
    intro b hall
    simp only [oc_action_pairs] at hall
    simp only [BareCallActions.approval_construction, oc_action_pairs,
      claimApprovalBareNodes, List.foldlM]
    rw [if_neg hall]
    cases e1 : bareNodesFor .NoOp b.no_op with
    | error e => simp [e1, except_bind_ok, except_bind_error, Except.map]
    | ok n1 =>
      cases e2 : bareNodesFor .OptIn b.opt_in with
      | error e =>
        simp [e1, e2, except_bind_ok, except_bind_error, Except.map]
      | ok n2 =>
        cases e3 : bareNodesFor .CloseOut b.close_out with
        | error e =>
          simp [e1, e2, e3, except_bind_ok, except_bind_error, Except.map]
        | ok n3 =>
          cases e4 : bareNodesFor .UpdateApplication b.update_application with
          | error e =>
            simp [e1, e2, e3, e4, except_bind_ok, except_bind_error,
              Except.map]
          | ok n4 =>
            cases e5 : bareNodesFor .DeleteApplication b.delete_application with
            | error e =>
              simp [e1, e2, e3, e4, e5, except_bind_ok, except_bind_error,
                Except.map]
            | ok n5 =>
              simp [e1, e2, e3, e4, e5, except_bind_ok, except_bind_error,
                Except.map]
  refine ⟨fun b => ?_, fun b hne => hstruct b
      (fun hx => hne ((hbridge b).mp hx)), fun oc oca h1 h2 => ?_,
    fun oc oca hc w1 h1 h2 hw => ?_, fun oc oca hk w2 h1 h2 hw => ?_,
    fun oc oca hc hk w1 w2 h1 h2 hw1 hw2 => ?_⟩
  · by_cases hall : (oc_action_pairs b).all (fun p => p.2.is_empty) = true
    · constructor
      · intro _
        exact (hbridge b).mp hall
      · intro _
        simp only [BareCallActions.approval_construction, hall, if_true]
        rfl
    · constructor
      · intro hok
        exfalso
        rw [hstruct b hall] at hok
        cases hfold : claimApprovalBareNodes b with
        | error e => rw [hfold] at hok; exact Except.noConfusion hok
        | ok ns =>
          rw [hfold] at hok
          simp [Except.map] at hok
      · intro hfive
        exact absurd ((hbridge b).mpr hfive) hall
  · simp only [bareNodesFor, h1, h2]
    rfl
  · simp only [bareNodesFor, h1, h2, hw, except_bind_ok]
    rfl
  · simp only [bareNodesFor, h1, h2, hw, except_bind_ok]
    rfl
  · simp only [bareNodesFor, h1, h2, hw1, hw2, except_bind_ok]
    rfl

/-- C9 witness: for the clear-state-only value the five non-clear-state
actions are empty, and the characterization yields None. -/
theorem approval_construction_characterization_witness :
    BareCallActions.approval_construction
      { clear_state := { on_create := some (.expr (.ext .none true 1)) } } =
      Except.ok Option.none :=
  (approval_construction_characterization.1
    { clear_state := { on_create := some (.expr (.ext .none true 1)) } }).mpr
    ⟨rfl, rfl, rfl, rfl, rfl⟩

theorem routerInit_shape (name : String) (bc : Option BareCallActions)
    (r0 : Router) (h : routerInit name bc = Except.ok r0) :
    (r0.approval_ast = [] ∨
      ∃ t, r0.approval_ast = [CondNode.mk (.eq .txnNumAppArgs (.int 0)) t]) ∧
    (r0.clear_state_ast = [] ∨
      ∃ t, r0.clear_state_ast = [CondNode.mk (.eq .txnNumAppArgs (.int 0)) t]) := by
  cases bc with
  | none =>
    simp only [routerInit] at h
    cases h
    exact ⟨Or.inl rfl, Or.inl rfl⟩
  | some bc =>
    by_cases hempty : bc.is_empty = true
    · simp only [routerInit, hempty, if_true] at h
      cases h
      exact ⟨Or.inl rfl, Or.inl rfl⟩
    · cases ha : bc.approval_construction with
      | error e =>
        simp only [routerInit, hempty, ha] at h
        exact absurd h (by simp [except_bind_error])
      | ok oap =>
        cases hc : bc.clear_state_construction with
        | error e =>
          simp only [routerInit, hempty, ha, hc] at h
          cases oap <;> exact absurd h (by
            simp [except_bind_ok, except_bind_error])
        | ok ocs =>
          simp only [routerInit, hempty, ha, hc, except_bind_ok] at h
          cases oap <;> cases ocs <;>
            simp only [except_bind_ok] at h <;> cases h <;>
            constructor <;> first
              | exact Or.inl rfl
              | exact Or.inr ⟨_, rfl⟩

theorem add_method_handler_ok_appends (hash : String → List Nat) (r : Router)
    (h : ABIReturnSubroutine) (o : Option String) (cc : MethodConfig)
    (hok : (add_method_handler hash r h o cc).2 = Option.none) :
    (add_method_handler hash r h o cc).1.approval_ast =
      r.approval_ast ++ approvalContrib ⟨h, o, cc⟩ ∧
    (add_method_handler hash r h o cc).1.clear_state_ast =
      r.clear_state_ast ++ clearContrib ⟨h, o, cc⟩ := by
  obtain ⟨hnever, hdup, hcol, hroutable⟩ :=
    add_method_handler_ok_conditions hash r h o cc hok
  obtain ⟨w, hw⟩ := wrap_handler_method_routable_ok h hroutable
  rw [add_method_handler_success hash r h o cc w hnever hdup hcol hw]
  simp [approvalContrib, clearContrib, hw]

theorem runRegs_appends (hash : String → List Nat) :
    ∀ (regs : List Registration) (r : Router),
    (runRegs hash r regs).2 = Option.none →
    (runRegs hash r regs).1.approval_ast =
      r.approval_ast ++ (regs.map approvalContrib).flatten ∧
    (runRegs hash r regs).1.clear_state_ast =
      r.clear_state_ast ++ (regs.map clearContrib).flatten := by
  intro regs
  induction regs with
  | nil => intro r _; simp [runRegs]
  | cons reg rest ih =>
    intro r hok
    rcases hadd : add_method_handler hash r reg.method_call
        reg.overriding_name reg.call_configs with ⟨r1, e⟩
    cases e with
    | some msg =>
      rw [show runRegs hash r (reg :: rest) = (r1, some msg) by
        simp [runRegs, hadd]] at hok
      exact absurd hok (by simp)
    | none =>
      have hrun : runRegs hash r (reg :: rest) = runRegs hash r1 rest := by
        simp [runRegs, hadd]
      rw [hrun] at hok ⊢
      have hstep := add_method_handler_ok_appends hash r reg.method_call
        reg.overriding_name reg.call_configs (by rw [hadd])
      rw [hadd] at hstep
      obtain ⟨ha1, hc1⟩ := hstep
      obtain ⟨ha2, hc2⟩ := ih r1 hok
      rw [ha2, hc2, ha1, hc1]
      simp [List.append_assoc]

/-- C6: in both trees, the bare-call CondNode installed at construction (when
present) is the single initial node and is guarded by "zero application
arguments supplied"; after a sequence of successful registrations each
builder's list is the initial bare-call nodes followed by the per-method
nodes in registration order; and the built program is the conditional chain
over that list in order. -/
theorem router_evaluation_order (hash : String → List Nat) (name : String)
    (bc : Option BareCallActions) (r0 : Router) (regs : List Registration)
    (hinit : routerInit name bc = Except.ok r0)
    (hok : (runRegs hash r0 regs).2 = Option.none) :
    (r0.approval_ast = [] ∨
      ∃ t, r0.approval_ast = [CondNode.mk (.eq .txnNumAppArgs (.int 0)) t]) ∧
    (r0.clear_state_ast = [] ∨
      ∃ t, r0.clear_state_ast = [CondNode.mk (.eq .txnNumAppArgs (.int 0)) t]) ∧
    (runRegs hash r0 regs).1.approval_ast =
      r0.approval_ast ++ (regs.map approvalContrib).flatten ∧
    (runRegs hash r0 regs).1.clear_state_ast =
      r0.clear_state_ast ++ (regs.map clearContrib).flatten ∧
    ((runRegs hash r0 regs).1.approval_ast ≠ [] →
      program_construction (runRegs hash r0 regs).1.approval_ast =
        Except.ok (.cond ((runRegs hash r0 regs).1.approval_ast.map
          (fun n => (n.condition, n.branch))))) ∧
    ((runRegs hash r0 regs).1.clear_state_ast ≠ [] →
      program_construction (runRegs hash r0 regs).1.clear_state_ast =
        Except.ok (.cond ((runRegs hash r0 regs).1.clear_state_ast.map
          (fun n => (n.condition, n.branch))))) := by
  obtain ⟨hi1, hi2⟩ := routerInit_shape name bc r0 hinit
  obtain ⟨hr1, hr2⟩ := runRegs_appends hash regs r0 hok
  exact ⟨hi1, hi2, hr1, hr2,
    fun hne => program_construction_ne_nil _ hne,
    fun hne => program_construction_ne_nil _ hne⟩

/-- C6 witness: with a no-op bare call and one arc4-compliant registration,
the approval list is the zero-args-guarded bare node followed by the method
node. -/
theorem router_evaluation_order_witness :
    (runRegs (fun _ => [0, 0, 0, 0])
      (Router.mk "w"
        [CondNode.mk (.eq .txnNumAppArgs (.int 0))
          (.cond [(.and (.eq .txnOnCompletion (.ocConst .NoOp))
            (.neq .txnApplicationId (.int 0)),
            .seq [.subroutineCall "bare", .approve])])]
        [] [] [])
      [Registration.mk (ABIReturnSubroutine.mk "go()void" 0 [] "void"
        (.atom 0)) Option.none MethodConfig.arc4_compliant]).1.approval_ast =
      [CondNode.mk (.eq .txnNumAppArgs (.int 0))
        (.cond [(.and (.eq .txnOnCompletion (.ocConst .NoOp))
          (.neq .txnApplicationId (.int 0)),
          .seq [.subroutineCall "bare", .approve])])] ++
      ([Registration.mk (ABIReturnSubroutine.mk "go()void" 0 [] "void"
        (.atom 0)) Option.none MethodConfig.arc4_compliant].map
          approvalContrib).flatten :=
  (router_evaluation_order (fun _ => [0, 0, 0, 0]) "w"
    (some (BareCallActions.mk {} {} {}
      (OnCompleteAction.mk Option.none
        (some (Handler.subroutineFn (SubroutineFnWrapper.mk "bare"
          TealType.none 0)))) {} {}))
    (Router.mk "w"
      [CondNode.mk (.eq .txnNumAppArgs (.int 0))
        (.cond [(.and (.eq .txnOnCompletion (.ocConst .NoOp))
          (.neq .txnApplicationId (.int 0)),
          .seq [.subroutineCall "bare", .approve])])]
      [] [] [])
    [Registration.mk (ABIReturnSubroutine.mk "go()void" 0 [] "void"
      (.atom 0)) Option.none MethodConfig.arc4_compliant]
    rfl rfl).2.2.1

end PyTealRouter
